import Mathlib

/-!
Verification development for the transaction-ingestion core of the `tally`
application (Rust sources under `src-tauri/src`).  The Rust functions are
shallowly embedded as executable Lean definitions: SQLite tables become lists
of records, `i64` becomes `Int`, fallible code returns `Except`/`Option`, and
the small `f64` confidence/mean computations are modelled exactly over `ℚ`
(all compared constants are far from the binary-rounding error of the
source's `f64` arithmetic).  Strings are modelled at the level of their
character lists; the Rust byte-level operations coincide with the char-level
model on the ASCII data handled here, and byte lengths are modelled by UTF-8
size where a Rust `len()` is compared against a constant.
-/

namespace Tally

/-! ## Character and string utilities -/

/-- ASCII decimal digit test, matching Rust `char::is_ascii_digit` and the
regex class `\d` (the source's regexes operate with default Unicode classes,
but all matched data is ASCII). -/
def isDigitC (c : Char) : Bool :=
  '0' ≤ c && c ≤ '9'

/-- Lowercasing of a string, modelling Rust `str::to_lowercase` (identical on
ASCII input). -/
def lowerStr (s : String) : String :=
  ⟨s.data.map Char.toLower⟩

/-- Substring occurrence test on character lists. -/
def infixOfList (pat hay : List Char) : Bool :=
  match hay with
  | [] => pat.isEmpty
  | _ :: t => pat.isPrefixOf hay || infixOfList pat t

/-- Rust `str::contains(pat)`: substring test. -/
def containsStr (hay pat : String) : Bool :=
  infixOfList pat.data hay.data

/-- Rust `str::starts_with(pat)`. -/
def startsWithStr (hay pat : String) : Bool :=
  pat.data.isPrefixOf hay.data

/-- Rust `str::ends_with(pat)`. -/
def endsWithStr (hay pat : String) : Bool :=
  pat.data.isSuffixOf hay.data

/-- Rust `str::trim` (whitespace at both ends removed; ASCII whitespace
suffices for the statement data). -/
def trimStr (s : String) : String :=
  ⟨(s.data.dropWhile Char.isWhitespace).reverse.dropWhile Char.isWhitespace |>.reverse⟩

/-- Split a character list on a separator (keeping empty segments). -/
def splitOnChar (sep : Char) : List Char → List (List Char)
  | [] => [[]]
  | c :: t =>
    match splitOnChar sep t with
    | [] => [[]]
    | h :: r => if c = sep then [] :: h :: r else (c :: h) :: r

/-- The lines of an extracted text (Rust `str::lines` up to trailing/empty
segments, all of which the scan loops skip). -/
def linesOf (text : String) : List String :=
  (splitOnChar '\n' text.data).map fun l => (⟨l⟩ : String)

/-- Lexicographic (bytewise, as SQLite BINARY collation on ASCII text)
strict comparison of character lists. -/
def charListLtb : List Char → List Char → Bool
  | [], [] => false
  | [], _ :: _ => true
  | _ :: _, [] => false
  | a :: as, b :: bs => if a < b then true else if b < a then false else charListLtb as bs

def strLtb (s t : String) : Bool := charListLtb s.data t.data

def strLeb (s t : String) : Bool := !strLtb t s

/-- Join words with single spaces (Rust `Vec::join(" ")`). -/
def joinSpaces : List (List Char) → List Char
  | [] => []
  | [w] => w
  | w :: ws => w ++ ' ' :: joinSpaces ws

/-- Rust `str::len()`: the UTF-8 byte length of a string. -/
def byteLen (s : String) : Nat :=
  s.data.foldl (fun n c => n + c.utf8Size) 0

/-- Number of non-whitespace characters of a string (used to state the
spec's reading of the low-signal-document threshold). -/
def nonWsCount (s : String) : Nat :=
  (s.data.filter (fun c => !c.isWhitespace)).length

/-- Length (in characters) of the leading run of decimal digits. -/
def digitRun (s : List Char) : Nat :=
  (s.takeWhile isDigitC).length

/-- Length of the leading run of characters satisfying `p`. -/
def runLen (p : Char → Bool) (s : List Char) : Nat :=
  (s.takeWhile p).length

/-- Digits of a natural number, most significant first (the fuel is an upper
bound on the digit count, so it is never exhausted). -/
def natDigitsF : Nat → Nat → List Char
  | 0, _ => []
  | fuel + 1, n =>
    if n < 10 then [Char.ofNat (48 + n)]
    else natDigitsF fuel (n / 10) ++ [Char.ofNat (48 + n % 10)]

def natDigits (n : Nat) : List Char :=
  natDigitsF (n + 1) n

/-- Render a natural number zero-padded to `w` digits, modelling Rust
`format "\x7b:0w\x7d"`. -/
def padNum (w n : Nat) : List Char :=
  let ds := natDigits n
  List.replicate (w - ds.length) '0' ++ ds

/-- Numeric value of a digit list (most significant first). -/
def digitsToNat (s : List Char) : Nat :=
  s.foldl (fun n c => n * 10 + (c.toNat - 48)) 0

/-! ## Calendar dates

The source handles dates through `chrono::NaiveDate`: parsing validates the
civil date, and day arithmetic is exact.  We model a date by its components
together with validity, and by its serial day number (days since 1970-01-01,
the standard civil-from-days algorithm).  All years produced by the embedded
parsers are non-negative, so the arithmetic stays in `Nat` until the final
epoch shift. -/

def isLeapYear (y : Nat) : Bool :=
  (y % 4 == 0 && y % 100 != 0) || (y % 400 == 0)

def daysInMonth (y m : Nat) : Nat :=
  if m == 2 then (if isLeapYear y then 29 else 28)
  else if m == 4 || m == 6 || m == 9 || m == 11 then 30
  else 31

/-- Validity of a civil date, as enforced by `chrono::NaiveDate`. -/
def validDate (y m d : Nat) : Bool :=
  1 ≤ m && m ≤ 12 && 1 ≤ d && d ≤ daysInMonth y m

/-- Serial day number of a valid civil date (days since 1970-01-01),
the standard era-based algorithm; matches `chrono` day arithmetic. -/
def toEpochDays (y m d : Nat) : Int :=
  let yAdj : Nat := if m ≤ 2 then y - 1 else y
  let era : Nat := yAdj / 400
  let yoe : Nat := yAdj % 400
  let mp : Nat := if m > 2 then m - 3 else m + 9
  let doy : Nat := (153 * mp + 2) / 5 + (d - 1)
  let doe : Nat := yoe * 365 + yoe / 4 - yoe / 100 + doy
  (era : Int) * 146097 + (doe : Int) - 719468

/-- Inverse of `toEpochDays` for day numbers at or after year 0
(all dates manipulated by the embedded code). -/
def ofEpochDays (z : Int) : Nat × Nat × Nat :=
  let zn : Nat := (z + 719468).toNat
  let era : Nat := zn / 146097
  let doe : Nat := zn % 146097
  let yoe : Nat := (doe - doe / 1460 + doe / 36524 - doe / 146096) / 365
  let y0 : Nat := yoe + era * 400
  let doy : Nat := doe - (365 * yoe + yoe / 4 - yoe / 100)
  let mp : Nat := (5 * doy + 2) / 153
  let d : Nat := doy - (153 * mp + 2) / 5 + 1
  let m : Nat := if mp < 10 then mp + 3 else mp - 9
  (if m ≤ 2 then y0 + 1 else y0, m, d)

/-- Render a date as `YYYY-MM-DD`, modelling
`format "\x7b:04\x7d-\x7b:02\x7d-\x7b:02\x7d"` / chrono `%Y-%m-%d`. -/
def formatDate (y m d : Nat) : String :=
  ⟨padNum 4 y ++ '-' :: padNum 2 m ++ '-' :: padNum 2 d⟩

/-- Render the date with the given serial day number. -/
def formatEpochDays (z : Int) : String :=
  let c := ofEpochDays z
  formatDate c.1 c.2.1 c.2.2

/-! ## chrono-style date parsing

`chrono::NaiveDate::parse_from_str` is modelled for the format directives the
source uses (`%Y`, `%m`, `%d`, `%y` and literal separators): numeric fields
consume a maximal digit run capped at the directive's width, the whole input
must be consumed, and the resulting civil date must be valid.  chrono's
two-digit-year window maps 0–68 to 2000–2068 and 69–99 to 1969–1999. -/

structure DateParts where
  y : Option Nat
  m : Option Nat
  d : Option Nat
deriving Repr, DecidableEq

/-- Run a chrono format string over the input, accumulating date fields. -/
def runChronoFmt : List Char → List Char → DateParts → Option DateParts
  | [], [], p => some p
  | [], _ :: _, _ => none
  | '%' :: f :: fs, s, p =>
      let r := digitRun s
      if f = 'Y' then
        if r = 0 then none else
        let t := min r 4
        runChronoFmt fs (s.drop t) { p with y := some (digitsToNat (s.take t)) }
      else if f = 'm' then
        if r = 0 then none else
        let t := min r 2
        runChronoFmt fs (s.drop t) { p with m := some (digitsToNat (s.take t)) }
      else if f = 'd' then
        if r = 0 then none else
        let t := min r 2
        runChronoFmt fs (s.drop t) { p with d := some (digitsToNat (s.take t)) }
      else if f = 'y' then
        if r = 0 then none else
        let t := min r 2
        let v := digitsToNat (s.take t)
        let yy := if v ≤ 68 then 2000 + v else 1900 + v
        runChronoFmt fs (s.drop t) { p with y := some yy }
      else none
  | c :: fs, s, p =>
      match s with
      | [] => none
      | c' :: s' => if c = c' then runChronoFmt fs s' p else none

/-- `chrono::NaiveDate::parse_from_str s fmt`, yielding the civil date. -/
def chronoParseDate (s fmt : String) : Option (Nat × Nat × Nat) :=
  match runChronoFmt fmt.data s.data ⟨none, none, none⟩ with
  | some ⟨some y, some m, some d⟩ => if validDate y m d then some (y, m, d) else none
  | _ => none

/-! ## Error type

`crate::error::AppError` is declared outside the provided sources; the
variants used by the embedded code are `Other` and `Validation`
(each carrying a message), as seen at every construction site in `src`. -/

inductive AppError where
  | other (msg : String)
  | validation (msg : String)
deriving Repr, DecidableEq

/-! ## Tabular (CSV) import parser — `src-tauri/src/import/csv_parser.rs` -/

structure ColumnMapping where
  dateColumn : Nat
  amountColumn : Nat
  debitColumn : Option Nat
  creditColumn : Option Nat
  payeeColumn : Option Nat
  memoColumn : Option Nat
  categoryColumn : Option Nat
  dateFormat : String
  invertAmounts : Bool

structure ParsedTransaction where
  date : String
  amount : Int
  payee : Option String
  memo : Option String
  categoryHint : Option String
  rawData : List (String × String)
deriving Repr, DecidableEq

/-- Unsigned decimal literal (`digits`, `digits.digits`, `digits.`,
`.digits`) as an exact mantissa/scale pair: the value is
`mantissa / 10 ^ scale`.  Models the grammar of Rust `str::parse::<f64>` on
the forms statement data takes; exponent, infinity and NaN spellings never
occur in cleaned amount strings and are rejected. -/
def parseUnsignedDecimal (s : List Char) : Option (Nat × Nat) :=
  let ip := s.takeWhile isDigitC
  let rest := s.dropWhile isDigitC
  match rest with
  | [] => if ip.isEmpty then none else some (digitsToNat ip, 0)
  | '.' :: fr =>
      let fd := fr.takeWhile isDigitC
      let rest2 := fr.dropWhile isDigitC
      if rest2.isEmpty && (!ip.isEmpty || !fd.isEmpty) then
        some (digitsToNat ip * 10 ^ fd.length + digitsToNat fd, fd.length)
      else none
  | _ => none

/-- Signed decimal literal: signed mantissa and decimal scale. -/
def parseSignedDecimal (s : List Char) : Option (Int × Nat) :=
  match s with
  | '-' :: t => (parseUnsignedDecimal t).map fun p => (-(p.1 : Int), p.2)
  | '+' :: t => (parseUnsignedDecimal t).map fun p => ((p.1 : Int), p.2)
  | t => (parseUnsignedDecimal t).map fun p => ((p.1 : Int), p.2)

/-- Division rounding half away from zero (the divisor is `1` or even, as
every divisor used is a power of ten). -/
def roundDivAway (v : Int) (d : Nat) : Int :=
  if 0 ≤ v then (v + d / 2) / d else -((-v + d / 2) / d)

/-- Rust `(f * 100.0).round() as i64` on the exact value
`mant / 10 ^ scale`: scaling to cents with rounding half away from zero
(exact wherever the `f64` computation is, i.e. on all statement amounts). -/
def centsOfDecimal (mant : Int) (scale : Nat) : Int :=
  roundDivAway (mant * 100) (10 ^ scale)

/-- `csv_parser::parse_amount`: strip `$` and `,`, turn `(` into a leading
minus and drop `)`, trim; empty input and unparseable input both yield `0`
(the function is total and never fails).  The numeric conversion
`(f * 100.0).round() as i64` is modelled exactly over `ℚ`. -/
def csvCleanAmount (s : String) : List Char :=
  let cleaned : List Char :=
    (trimStr s).data.filterMap fun c =>
      if c = '$' then none
      else if c = ',' then none
      else if c = '(' then some '-'
      else if c = ')' then none
      else some c
  (trimStr ⟨cleaned⟩).data

def csvParseAmount (s : String) : Int :=
  let cleaned := csvCleanAmount s
  if cleaned.isEmpty then 0
  else
    match parseSignedDecimal cleaned with
    | some (mant, scale) => centsOfDecimal mant scale
    | none => 0

/-- `csv_parser::parse_date`: empty input is a validation error; with an
empty format hint an ordered list of common formats is tried, otherwise only
the given format; the first success is rendered as ISO `YYYY-MM-DD`. -/
def csvParseDate (s fmtStr : String) : Except AppError String :=
  let trimmed := trimStr s
  if trimmed.data.isEmpty then .error (.validation "Empty date")
  else
    let fmts : List String :=
      if fmtStr.data.isEmpty then
        ["%Y-%m-%d", "%m/%d/%Y", "%m/%d/%y", "%d/%m/%Y", "%Y/%m/%d", "%m-%d-%Y", "%d-%m-%Y"]
      else [fmtStr]
    match fmts.filterMap (fun f => chronoParseDate trimmed f) with
    | (y, m, d) :: _ => .ok (formatDate y m d)
    | [] => .error (.validation ("Could not parse date: " ++ s))

/-- One record of the csv reader's iterator: a row either read successfully
into its fields or failed at the reader level (malformed quoting etc.),
mirroring the per-record `Result` of `csv::Reader::records`. -/
abbrev CsvRecord := Except String (List String)

/-- Option of a non-empty trimmed field, modelling
`.map(trim).filter(non-empty)` on an optional column. -/
def optField (fields : List String) (col : Option Nat) : Option String :=
  (col.bind fun c => fields.get? c).map trimStr |>.filter (fun v => !v.data.isEmpty)

/-- Body of the `parse_csv` row loop for one successfully read record. -/
def parseCsvRow (headers : List String) (mapping : ColumnMapping)
    (fields : List String) : Except AppError ParsedTransaction := do
  let dateStr := trimStr (fields.getD mapping.dateColumn "")
  let parsedDate ← csvParseDate dateStr mapping.dateFormat
  let amount : Int :=
    match mapping.debitColumn, mapping.creditColumn with
    | some debitCol, some creditCol =>
        csvParseAmount (fields.getD creditCol "") - csvParseAmount (fields.getD debitCol "")
    | _, _ =>
        let raw := csvParseAmount (fields.getD mapping.amountColumn "")
        if mapping.invertAmounts then -raw else raw
  let rawData := (headers.enum).filterMap fun p => (fields.get? p.1).map fun v => (p.2, v)
  pure { date := parsedDate, amount := amount,
         payee := optField fields mapping.payeeColumn,
         memo := optField fields mapping.memoColumn,
         categoryHint := optField fields mapping.categoryColumn,
         rawData := rawData }

/-- `csv_parser::parse_csv` after the file/header stage: each record of the
reader is processed in order; a reader-level record failure or a date-parse
failure aborts the whole parse via `?`.  (`raw_data` is modelled as the
association list of header/value pairs.) -/
def parseCsv (headers : List String) (records : List CsvRecord)
    (mapping : ColumnMapping) : Except AppError (List ParsedTransaction) :=
  match records with
  | [] => .ok []
  | r :: rs =>
    match r with
    | .error e => .error (.other ("Failed to read record: " ++ e))
    | .ok fields =>
      match parseCsvRow headers mapping fields with
      | .error e => .error e
      | .ok tx =>
        match parseCsv headers rs mapping with
        | .error e => .error e
        | .ok rest => .ok (tx :: rest)

instance {ε α : Type} [DecidableEq ε] [DecidableEq α] : DecidableEq (Except ε α) :=
  fun a b =>
    match a, b with
    | .error e, .error e' => decidable_of_iff (e = e') (by constructor <;> (intro h; cases h <;> rfl))
    | .ok v, .ok v' => decidable_of_iff (v = v') (by constructor <;> (intro h; cases h <;> rfl))
    | .error _, .ok _ => isFalse (by intro h; cases h)
    | .ok _, .error _ => isFalse (by intro h; cases h)

/-! ## Ledger transactions — the `transactions` table

Only the columns read or written by the embedded commands are modelled; the
table is a list of rows and primary-key uniqueness (`Nodup` of ids) is a
database invariant taken as a hypothesis where needed. -/

structure Txn where
  id : String
  accountId : String
  date : String
  amount : Int
  payee : Option String
  categoryId : Option String
  transferId : Option String
  transferAccountId : Option String
  deletedAt : Option String
  importSource : Option String
  importBatchId : Option String
  createdAt : String
  updatedAt : String
deriving Repr, DecidableEq

/-! ## Transfer matcher — `commands/transactions.rs` -/

structure TransferCandidate where
  transactionA : Txn
  transactionB : Txn
  confidence : ℚ
deriving Repr, DecidableEq

def transferKeywords : List String :=
  ["transfer", "xfer", "payment", "ach", "wire", "zelle", "venmo"]

/-- `calculate_payee_similarity`: 0.8 when both lowercased payees contain a
transfer keyword, 0.5 when exactly one does, 0.3 otherwise (including an
absent payee). -/
def calculatePayeeSimilarity (payeeA payeeB : Option String) : ℚ :=
  match payeeA, payeeB with
  | some a, some b =>
    let aHas := transferKeywords.any fun k => containsStr (lowerStr a) k
    let bHas := transferKeywords.any fun k => containsStr (lowerStr b) k
    if aHas && bHas then 0.8
    else if aHas || bHas then 0.5
    else 0.3
  | _, _ => 0.3

/-- Serial day number of a parsed civil date triple. -/
def dateTripleDays (c : Nat × Nat × Nat) : Int :=
  toEpochDays c.1 c.2.1 c.2.2

/-- Inner body of the `detect_transfers` pair loop: `none` when the pair is
rejected (same account, non-opposite amounts, an unparseable date, more than
5 days apart, or confidence at most 0.5). -/
def evalTransferPair (p : Txn × Txn) : Option TransferCandidate :=
  let a := p.1
  let b := p.2
  if a.accountId = b.accountId then none
  else if a.amount ≠ -b.amount then none
  else
    match chronoParseDate a.date "%Y-%m-%d", chronoParseDate b.date "%Y-%m-%d" with
    | some da, some db =>
      let daysDiff : Int := ((dateTripleDays da - dateTripleDays db).natAbs : Int)
      if 5 < daysDiff then none
      else
        let dateScore : ℚ := 1 - (daysDiff : ℚ) / 5
        let payeeScore : ℚ := calculatePayeeSimilarity a.payee b.payee
        let conf : ℚ := dateScore * 0.6 + payeeScore * 0.4
        if 1 / 2 < conf then some ⟨a, b, conf⟩ else none
    | _, _ => none

/-- All ordered pairs `(l[i], l[j])` with `i < j`, the iteration space of the
nested `enumerate`/`skip(i+1)` loops. -/
def ordPairs : List α → List (α × α)
  | [] => []
  | x :: xs => xs.map (fun y => (x, y)) ++ ordPairs xs

/-- `detect_transfers` after the SQL query: evaluate every ordered pair, sort
the surviving candidates by confidence descending (Rust's stable `sort_by`),
and keep the top 20. -/
def detectTransfers (txs : List Txn) : List TransferCandidate :=
  let candidates := (ordPairs txs).filterMap evalTransferPair
  (List.insertionSort (fun x y => y.confidence ≤ x.confidence) candidates).take 20

/-- The SQL query feeding `detect_transfers`: non-deleted, unlinked rows with
`date >= date('now','-90 days')` (ISO strings compare like SQLite text),
ordered by date descending.  `cutoff` stands for the 90-days-ago date. -/
def queryTransferPool (state : List Txn) (cutoff : String) : List Txn :=
  List.insertionSort (fun x y => strLeb y.date x.date = true)
    (state.filter fun t =>
      t.deletedAt = none && t.transferId = none && strLeb cutoff t.date)

/-- The full `detect_transfers` command. -/
def detectTransfersCmd (state : List Txn) (cutoff : String) : List TransferCandidate :=
  detectTransfers (queryTransferPool state cutoff)

/-- `link_transfer`: read both transactions' account ids (an absent id is a
`query_row` error), then give both rows the same freshly generated transfer
id and each other's account id, with no validation of accounts, amounts,
deletion state, or existing links. -/
def linkTransfer (state : List Txn) (aId bId freshId now : String) :
    Except AppError (List Txn) := do
  let accA ←
    match state.find? (fun t => t.id = aId) with
    | some t => pure t.accountId
    | none => .error (.other "QueryReturnedNoRows")
  let accB ←
    match state.find? (fun t => t.id = bId) with
    | some t => pure t.accountId
    | none => .error (.other "QueryReturnedNoRows")
  let st1 := state.map fun t =>
    if t.id = aId then
      { t with transferId := some freshId, transferAccountId := some accB, updatedAt := now }
    else t
  let st2 := st1.map fun t =>
    if t.id = bId then
      { t with transferId := some freshId, transferAccountId := some accA, updatedAt := now }
    else t
  pure st2

/-! ## Category rules — `commands/rules.rs` and `commands/import.rs`

`payee_regex` rules call `regex::Regex::new(pattern)` and test the raw-cased
payee, treating a compile failure as no match; regular-expression semantics
is abstracted as an arbitrary fixed function `rmatch pattern payee`
(compile-failure-as-false folded in), which every theorem quantifies over. -/

structure CategoryRule where
  id : String
  categoryId : String
  ruleType : String
  pattern : String
  amountMin : Option Int
  amountMax : Option Int
  accountId : Option String
  priority : Int
  isActive : Bool
deriving Repr, DecidableEq

/-- The rule query shared by both implementations:
`WHERE is_active = 1 ORDER BY priority DESC`. -/
def activeRulesByPriority (rules : List CategoryRule) : List CategoryRule :=
  List.insertionSort (fun x y => y.priority ≤ x.priority) (rules.filter (·.isActive))

/-- One iteration of the inner rule loop: the `continue` guards (account
filter, inclusive amount bounds) followed by the `rule_type` pattern match. -/
def ruleMatches (rmatch : String → String → Bool) (r : CategoryRule)
    (accountId : String) (payee : Option String) (amount : Int) : Bool :=
  (match r.accountId with
   | some acc => acc = accountId
   | none => true) &&
  (match r.amountMin with
   | some mn => mn ≤ amount
   | none => true) &&
  (match r.amountMax with
   | some mx => amount ≤ mx
   | none => true) &&
  (if r.ruleType = "payee_contains" then
     match payee with
     | some p => containsStr (lowerStr p) (lowerStr r.pattern)
     | none => false
   else if r.ruleType = "payee_exact" then
     match payee with
     | some p => lowerStr p = lowerStr r.pattern
     | none => false
   else if r.ruleType = "payee_starts_with" then
     match payee with
     | some p => startsWithStr (lowerStr p) (lowerStr r.pattern)
     | none => false
   else if r.ruleType = "payee_regex" then
     match payee with
     | some p => rmatch r.pattern p
     | none => false
   else false)

/-- First matching rule's category (`break` on first match). -/
def firstMatchingCategory (rmatch : String → String → Bool)
    (rules : List CategoryRule) (accountId : String) (payee : Option String)
    (amount : Int) : Option String :=
  (rules.find? fun r => ruleMatches rmatch r accountId payee amount).map (·.categoryId)

/-- Scope test: `id IN (...)` for an explicit id list, everything otherwise. -/
def inScope (scope : Option (List String)) (id : String) : Bool :=
  match scope with
  | some ids => ids.contains id
  | none => true

/-- Set one row's category (`UPDATE transactions SET category_id = ...`). -/
def setCategory (state : List Txn) (txId cid now : String) : List Txn :=
  state.map fun t =>
    if t.id = txId then { t with categoryId := some cid, updatedAt := now } else t

/-- `ORDER BY date DESC LIMIT 1` over the non-deleted, categorized rows with
the given payee and a different id: the latest-dated such row's category
(first-seen row wins among equal dates; SQLite leaves that order
unspecified). -/
def latestCategoryForPayee (state : List Txn) (payee : String) (selfId : String) :
    Option String :=
  let cands := state.filter fun t =>
    t.payee = some payee && t.categoryId ≠ none && t.deletedAt = none && t.id ≠ selfId
  (cands.foldl
      (fun best t =>
        match best with
        | none => some t
        | some b => if b.date < t.date then some t else some b)
      none).bind (·.categoryId)

/-- `import.rs::apply_category_rules_internal`.  Empty active rule set and an
explicit empty scope return 0 immediately (skipping the learning pass).  The
rule pass folds over a snapshot of the uncategorized, non-deleted rows in
scope; the learning pass folds over a fresh snapshot of those still
uncategorized with a payee, looking up the latest categorized same-payee row
live at each step. -/
def applyCategoryRulesInternal (rmatch : String → String → Bool)
    (ruleTable : List CategoryRule) (scope : Option (List String))
    (state : List Txn) (now : String) : List Txn × Nat :=
  let rules := activeRulesByPriority ruleTable
  if rules.isEmpty then (state, 0)
  else if (match scope with | some ids => ids.isEmpty | none => false) then (state, 0)
  else
    let snapshot1 := state.filter fun t =>
      inScope scope t.id && t.categoryId = none && t.deletedAt = none
    let step1 := snapshot1.foldl
      (fun (acc : List Txn × Nat) t =>
        match firstMatchingCategory rmatch rules t.accountId t.payee t.amount with
        | some cid => (setCategory acc.1 t.id cid now, acc.2 + 1)
        | none => acc)
      (state, 0)
    let snapshot2 := step1.1.filter fun t =>
      inScope scope t.id && t.categoryId = none && t.payee ≠ none && t.deletedAt = none
    snapshot2.foldl
      (fun (acc : List Txn × Nat) t =>
        match t.payee with
        | none => acc
        | some p =>
          match latestCategoryForPayee acc.1 p t.id with
          | some cid => (setCategory acc.1 t.id cid now, acc.2 + 1)
          | none => acc)
      step1

/-- `rules.rs::apply_category_rules` (the exposed command).  It has no
learning pass, and its scoped candidate query selects `WHERE id IN (...) AND
deleted_at IS NULL` with no `category_id IS NULL` condition, unlike its
unscoped branch and unlike the import-path implementation. -/
def applyCategoryRulesCmd (rmatch : String → String → Bool)
    (ruleTable : List CategoryRule) (scope : Option (List String))
    (state : List Txn) (now : String) : List Txn × Nat :=
  let rules := activeRulesByPriority ruleTable
  if rules.isEmpty then (state, 0)
  else if (match scope with | some ids => ids.isEmpty | none => false) then (state, 0)
  else
    let snapshot := state.filter fun t =>
      match scope with
      | some ids => ids.contains t.id && t.deletedAt = none
      | none => t.categoryId = none && t.deletedAt = none
    snapshot.foldl
      (fun (acc : List Txn × Nat) t =>
        match firstMatchingCategory rmatch rules t.accountId t.payee t.amount with
        | some cid => (setCategory acc.1 t.id cid now, acc.2 + 1)
        | none => acc)
      (state, 0)

/-! ## Import reconciler — `commands/import.rs::import_transactions` -/

/-- One element of the incoming JSON batch, with the field-access defaults of
the source (`date` defaults to the empty string, `amount` to 0) already
applied. -/
structure IncomingTx where
  date : String
  amount : Int
  payee : Option String
  memo : Option String
  categoryId : Option String
  pdfCategory : Option String
deriving Repr, DecidableEq

structure Category where
  id : String
  name : String
  deletedAt : Option String
deriving Repr, DecidableEq

/-- The lowercased-name → id cache over non-deleted categories; a later row
overwrites an earlier one with the same lowercased name, as in the source's
`HashMap` insertions. -/
def categoryNameCache (cats : List Category) : List (String × String) :=
  (cats.filter fun c => c.deletedAt = none).foldl
    (fun m c => (lowerStr c.name, c.id) :: m) []

/-- Category resolution for one incoming transaction: an explicit id wins,
otherwise the `pdfCategory` hint is looked up case-insensitively. -/
def resolveCategory (cats : List Category) (inc : IncomingTx) : Option String :=
  match inc.categoryId with
  | some cid => some cid
  | none =>
    match inc.pdfCategory with
    | some hint => (categoryNameCache cats).lookup (lowerStr hint)
    | none => none

/-- The duplicate-detection query: an existing non-deleted row of the target
account with identical date, amount and payee (`NULL` matching `NULL`). -/
def findDuplicate (state : List Txn) (accountId : String) (inc : IncomingTx) :
    Option Txn :=
  state.find? fun t =>
    t.accountId = accountId && t.date = inc.date && t.amount = inc.amount &&
    t.payee = inc.payee && t.deletedAt = none

/-- The freshly inserted row for one accepted incoming transaction. -/
def insertedTxn (accountId : String) (inc : IncomingTx) (cats : List Category)
    (newId batchId now : String) : Txn :=
  { id := newId, accountId := accountId, date := inc.date, amount := inc.amount,
    payee := inc.payee, categoryId := resolveCategory cats inc,
    transferId := none, transferAccountId := none, deletedAt := none,
    importSource := some "csv", importBatchId := some batchId,
    createdAt := now, updatedAt := now }

/-- State of the import loop: current table, counts, and the ids inserted so
far (the fresh-id supply is indexed by the number imported). -/
def importLoop (accountId : String) (cats : List Category)
    (freshIds : Nat → String) (batchId now : String) :
    List IncomingTx → List Txn × Nat × Nat × List String →
    List Txn × Nat × Nat × List String
  | [], acc => acc
  | inc :: rest, (state, imported, skipped, ids) =>
    match findDuplicate state accountId inc with
    | some _ => importLoop accountId cats freshIds batchId now rest
        (state, imported, skipped + 1, ids)
    | none =>
      let newId := freshIds imported
      importLoop accountId cats freshIds batchId now rest
        (state ++ [insertedTxn accountId inc cats newId batchId now],
         imported + 1, skipped, ids ++ [newId])

/-- `SELECT COALESCE(SUM(amount), 0) ... WHERE account_id = ? AND deleted_at
IS NULL` — the recomputed balance written back to the account row. -/
def accountBalanceSum (state : List Txn) (accountId : String) : Int :=
  (state.filter fun t => t.accountId = accountId && t.deletedAt = none).foldl
    (fun s t => s + t.amount) 0

structure ImportOutcome where
  state : List Txn
  imported : Nat
  skipped : Nat
  categorized : Nat
  balance : Int
deriving Repr, DecidableEq

/-- `import_transactions`: per-row dedup and insert, then the account balance
is recomputed as the sum of the account's non-deleted amounts (written to
`accounts.current_balance`, returned here as `balance`), then the internal
rule engine runs over the newly inserted ids. -/
def importTransactions (rmatch : String → String → Bool)
    (state : List Txn) (cats : List Category) (ruleTable : List CategoryRule)
    (accountId : String) (batch : List IncomingTx)
    (freshIds : Nat → String) (batchId now : String) : ImportOutcome :=
  let r := importLoop accountId cats freshIds batchId now batch (state, 0, 0, [])
  let balance := accountBalanceSum r.1 accountId
  let c := applyCategoryRulesInternal rmatch ruleTable (some r.2.2.2) r.1 now
  { state := c.1, imported := r.2.1, skipped := r.2.2.1, categorized := c.2,
    balance := balance }

/-! ## Heuristic document (PDF) parser — `src-tauri/src/import/pdf_parser.rs`

The concrete regular expressions of the source are hand-translated to
matchers on character lists; each translation follows the
leftmost-first/greedy semantics of the `regex` crate for that particular
pattern (the character classes involved are disjoint from the following
literal, so greedy matching never needs to backtrack into a shorter run). -/

structure PdfTransaction where
  date : String
  description : String
  amount : Int
  runningBalance : Option Int
  rawLine : String
  category : Option String
deriving Repr, DecidableEq

structure PdfPreview where
  transactions : List PdfTransaction
  totalRows : Nat
  detectedFormat : Option String
  detectedColumns : List String
  rawTextSample : String
  confidence : ℚ
deriving Repr, DecidableEq

def headerKeywords : List String :=
  ["date", "description", "amount", "balance", "debit", "credit",
   "withdrawal", "deposit", "transaction", "posted"]

def monthAbbrevs : List String :=
  ["jan", "feb", "mar", "apr", "may", "jun",
   "jul", "aug", "sep", "oct", "nov", "dec"]

def summaryKeywords : List String :=
  ["total", "summary", "subtotal", "balance forward", "previous balance",
   "ending balance", "beginning balance", "opening balance", "closing balance",
   "average", "minimum", "maximum", "page", "continued", "spending",
   "income", "net", "cash flow", "overview", "breakdown"]

def categoryKeywords : List String :=
  ["groceries", "dining", "restaurants", "shopping", "entertainment",
   "utilities", "bills", "transportation", "gas", "travel", "healthcare",
   "medical", "insurance", "education", "subscriptions", "personal",
   "home", "automotive", "clothing", "electronics", "gifts", "donations",
   "fees", "taxes", "income", "salary", "transfer", "payment"]

/-- Anchored match of `\d\x7b1,2\x7dSEP\d\x7b1,2\x7dSEP\d\x7b2,4\x7d`
(`DATE_PATTERNS[0]` with `/`, `DATE_PATTERNS[2]` with `-`): the matched
length and the three numeric fields. -/
def matchSepDate (sep : Char) (s : List Char) : Option (Nat × Nat × Nat × Nat) :=
  let r1 := digitRun s
  if 1 ≤ r1 && r1 ≤ 2 && s.get? r1 = some sep then
    let s2 := s.drop (r1 + 1)
    let r2 := digitRun s2
    if 1 ≤ r2 && r2 ≤ 2 && s2.get? r2 = some sep then
      let s3 := s2.drop (r2 + 1)
      let r3 := digitRun s3
      if 2 ≤ r3 then
        let t3 := min r3 4
        some (r1 + 1 + r2 + 1 + t3,
              digitsToNat (s.take r1), digitsToNat (s2.take r2), digitsToNat (s3.take t3))
      else none
    else none
  else none

/-- Anchored match of `\d\x7b4\x7d-\d\x7b2\x7d-\d\x7b2\x7d`
(`DATE_PATTERNS[1]`): the matched length (10) and the numeric fields. -/
def matchIsoDate (s : List Char) : Option (Nat × Nat × Nat × Nat) :=
  match s with
  | y1 :: y2 :: y3 :: y4 :: '-' :: m1 :: m2 :: '-' :: d1 :: d2 :: _ =>
    if [y1, y2, y3, y4, m1, m2, d1, d2].all isDigitC then
      some (10, digitsToNat [y1, y2, y3, y4], digitsToNat [m1, m2], digitsToNat [d1, d2])
    else none
  | _ => none

/-- `pdf_parser::starts_with_date`: any of the three date patterns matches at
the start of the trimmed line. -/
def startsWithDate (line : String) : Bool :=
  let s := (trimStr line).data
  (matchSepDate '/' s).isSome || (matchIsoDate s).isSome || (matchSepDate '-' s).isSome

/-- `pdf_parser::extract_date_from_line` combined with
`pdf_parser::parse_date` on the matched text: the patterns are tried in
order; slash and dash dates are month/day/year with two-digit years shifted
into the 2000s, ISO dates pass through; no civil-validity check is performed
(`parse_date` only reformats). Returns the formatted date and the match
length within the trimmed line. -/
def extractDateFromLine (line : String) : Option (String × Nat) :=
  let s := (trimStr line).data
  match matchSepDate '/' s with
  | some (len, mo, dy, yr) =>
      some (formatDate (if yr < 100 then yr + 2000 else yr) mo dy, len)
  | none =>
    match matchIsoDate s with
    | some (len, yr, mo, dy) => some (formatDate yr mo dy, len)
    | none =>
      match matchSepDate '-' s with
      | some (len, mo, dy, yr) =>
          some (formatDate (if yr < 100 then yr + 2000 else yr) mo dy, len)
      | none => none

def isDigitComma (c : Char) : Bool := isDigitC c || c = ','

/-- Anchored match of the financial-amount pattern
`[\$]?[\-\(]?[\d,]\x7b1,12\x7d\.\d\x7b2\x7d` and, when `withSuffix` is set,
the trailing `[\)\-]?(?:CR)?` of `extract_amounts_from_end`'s pattern.
Returns the matched length. -/
def matchAmountAt (withSuffix : Bool) (s : List Char) : Option Nat :=
  let (l1, s1) : Nat × List Char :=
    match s with
    | '$' :: t => (1, t)
    | _ => (0, s)
  let (l2, s2) : Nat × List Char :=
    match s1 with
    | '-' :: t => (1, t)
    | '(' :: t => (1, t)
    | _ => (0, s1)
  let r := runLen isDigitComma s2
  if 1 ≤ r && r ≤ 12 && s2.get? r = some '.' then
    match s2.drop (r + 1) with
    | a :: b :: rest =>
      if isDigitC a && isDigitC b then
        if withSuffix then
          let (l4, rest2) : Nat × List Char :=
            match rest with
            | ')' :: t => (1, t)
            | '-' :: t => (1, t)
            | _ => (0, rest)
          let l5 : Nat :=
            match rest2 with
            | 'C' :: 'R' :: _ => 2
            | _ => 0
          some (l1 + l2 + r + 3 + l4 + l5)
        else some (l1 + l2 + r + 3)
      else none
    | _ => none
  else none

/-- `Regex::find_iter` for the full amount pattern: successive leftmost
non-overlapping matches (every match is at least 4 characters, so the fuel
`s.length` is never exhausted). -/
def amountMatchListF : Nat → List Char → List (List Char)
  | 0, _ => []
  | _, [] => []
  | fuel + 1, s =>
    match matchAmountAt true s with
    | some len => s.take len :: amountMatchListF fuel (s.drop len)
    | none => amountMatchListF fuel (s.drop 1)

def amountMatchList (s : List Char) : List (List Char) :=
  amountMatchListF s.length s

/-- Start index of the first match of the suffix-free amount pattern
(`Regex::find` in the description computation). -/
def findFirstAmountStart : List Char → Option Nat
  | [] => none
  | s@(_ :: t) =>
    if (matchAmountAt false s).isSome then some 0
    else (findFirstAmountStart t).map (· + 1)

/-- `pdf_parser::parse_amount`: strip `,` and `$` after trimming; an
uppercased `CR` suffix marks a credit; `(...)`, a leading `-` or a trailing
`-` mark a negative; the remaining decimal is scaled to cents with rounding.
Credits are positive; both negatives and plain amounts become negative
(regular charges on a credit-card statement are expenses). -/
def pdfParseAmount (s : String) : Option Int :=
  let cleaned := (trimStr s).data.filter fun c => c ≠ ',' && c ≠ '$'
  if cleaned.isEmpty then none
  else
    let isCredit := ['C', 'R'].isSuffixOf (cleaned.map Char.toUpper)
    let afterCr := if isCredit then cleaned.take (cleaned.length - 2) else cleaned
    let (isNegative, numStr) : Bool × List Char :=
      match afterCr with
      | '(' :: t => if afterCr.getLast? = some ')' then (true, t.take (t.length - 1)) else (false, afterCr)
      | '-' :: t => (true, t)
      | _ => if afterCr.getLast? = some '-' then (true, afterCr.take (afterCr.length - 1))
             else (false, afterCr)
    match parseSignedDecimal numStr with
    | none => none
    | some (mant, scale) =>
      let cents := centsOfDecimal mant scale
      if isCredit then some cents
      else if isNegative then some (-cents)
      else some (-cents)

/-- `extract_amounts_from_end`: parse the last (up to) three pattern matches
of the line, keep those within one billion cents in absolute value, in
original order. -/
def extractAmountsFromEnd (line : String) : List Int :=
  (((amountMatchList line.data).reverse.take 3).filterMap fun m =>
    (pdfParseAmount ⟨m⟩).filter fun amt => amt.natAbs ≤ 1000000000).reverse

/-- `is_header_line`: at least two header keywords occur in the lowercased
line. -/
def isHeaderLine (line : String) : Bool :=
  2 ≤ (headerKeywords.filter fun k => containsStr (lowerStr line) k).length

/-- `is_summary_table_line`: at least two month abbreviations occur. -/
def isSummaryTableLine (line : String) : Bool :=
  2 ≤ (monthAbbrevs.filter fun m => containsStr (lowerStr line) m).length

/-- Rust `str::trim_end_matches(':')`: drop every trailing colon. -/
def trimEndColons (s : String) : String :=
  ⟨(s.data.reverse.dropWhile (· = ':')).reverse⟩

/-- `extract_category_header`: a non-date line that, lowercased, trimmed and
stripped of trailing colons, equals a category keyword or starts with one
followed by a space; yields the original-cased trimmed line. -/
def extractCategoryHeader (line : String) : Option String :=
  let trimmed := trimEndColons (trimStr (lowerStr line))
  if startsWithDate line then none
  else
    (categoryKeywords.find? fun cat =>
        trimmed = cat || startsWithStr trimmed (cat ++ " ")).map
      fun _ => trimEndColons (trimStr line)

def isCategoryHeader (line : String) : Bool :=
  (extractCategoryHeader line).isSome

/-- Full-line match of `^\$[\d,]+\.\d\x7b2\x7d$`. -/
def isBareDollarAmount (s : List Char) : Bool :=
  match s with
  | '$' :: rest =>
    let r := runLen isDigitComma rest
    1 ≤ r &&
      (match rest.drop r with
       | ['.', a, b] => isDigitC a && isDigitC b
       | _ => false)
  | _ => false

/-- Full-line match of `^\d+\.?\d*\s+[A-Z]\x7b3\x7d$`. -/
def isAmountMonthLabel (s : List Char) : Bool :=
  let r1 := digitRun s
  if r1 = 0 then false
  else
    let s1 := s.drop r1
    let s2 :=
      match s1 with
      | '.' :: t => t.drop (digitRun t)
      | _ => s1
    let w := runLen Char.isWhitespace s2
    1 ≤ w &&
      (match s2.drop w with
       | [a, b, c] => a.isUpper && b.isUpper && c.isUpper
       | _ => false)

def fullMonthNames : List String :=
  ["january", "february", "march", "april", "may", "june",
   "july", "august", "september", "october", "november", "december"]

/-- `is_chart_noise`: very short lines, bare dollar amounts, digit/symbol
lines, amount-plus-month chart labels, bare month names, and full-month
summary rows. -/
def isChartNoise (line : String) : Bool :=
  let trimmed := trimStr line
  if byteLen trimmed < 3 then true
  else if isBareDollarAmount trimmed.data then true
  else if trimmed.data.all (fun c =>
            isDigitC c || c = '.' || c = ',' || c = '%' || c = '$' || c.isWhitespace) &&
          (!trimmed.data.contains '.' || byteLen trimmed < 4) then true
  else if isAmountMonthLabel trimmed.data then true
  else
    let lower := lowerStr trimmed
    if monthAbbrevs.any (fun m => lower = m || lower = m ++ ".") then true
    else fullMonthNames.any fun m =>
      lower = m || (startsWithStr lower m && lower.data.contains '$')

/-- Full-line match of `^[A-Za-z][A-Za-z\s/]+\$[\d,]+\.\d\x7b2\x7d$` on a
`$`-containing, non-date line (`is_category_total_line`). -/
def isCategoryTotalLine (line : String) : Bool :=
  let trimmed := trimStr line
  if !trimmed.data.contains '$' then false
  else if startsWithDate line then false
  else
    match trimmed.data with
    | c0 :: rest =>
      c0.isAlpha &&
        (let r := runLen (fun c => c.isAlpha || c.isWhitespace || c = '/') rest
         1 ≤ r &&
           (match rest.drop r with
            | '$' :: num =>
              let rn := runLen isDigitComma num
              1 ≤ rn &&
                (match num.drop rn with
                 | ['.', a, b] => isDigitC a && isDigitC b
                 | _ => false)
            | _ => false))
    | [] => false

/-- `is_total_row`: quarterly/annual period totals. -/
def isTotalRow (line : String) : Bool :=
  startsWithStr (lowerStr line) "quarterly" || startsWithStr (lowerStr line) "annual"

/-- `should_skip_line`: the disjunction of all skip classifiers, in source
order. -/
def shouldSkipLine (line : String) : Bool :=
  summaryKeywords.any (fun k => containsStr (lowerStr line) k) ||
  isSummaryTableLine line ||
  isCategoryHeader line ||
  isChartNoise line ||
  isCategoryTotalLine line ||
  isTotalRow line

/-- `is_transaction_section_start`. -/
def isTransactionSectionStart (line : String) : Bool :=
  let lower := lowerStr line
  containsStr lower "transaction" || containsStr lower "activity" ||
  containsStr lower "details" || containsStr lower "account activity"

/-- `parse_transaction_line`: a leading date, at least one qualifying amount
(the first is the amount, the last a running balance when two or more
matched), and a description of at least two bytes between date and first
amount token. -/
def parseTransactionLine (line : String) (category : Option String) :
    Option PdfTransaction := do
  let (date, dateEnd) ← extractDateFromLine line
  let amounts := extractAmountsFromEnd line
  match amounts with
  | [] => none
  | amount :: restAmounts =>
    let runningBalance := if restAmounts.isEmpty then none else amounts.getLast?
    let trimmed := trimStr line
    let afterDate : List Char :=
      if dateEnd < trimmed.data.length then trimmed.data.drop dateEnd else []
    let description : String :=
      match findFirstAmountStart afterDate with
      | some st => trimStr ⟨afterDate.take st⟩
      | none => trimStr ⟨afterDate⟩
    if byteLen description < 2 then none
    else
      some { date := date, description := description, amount := amount,
             runningBalance := runningBalance, rawLine := line, category := category }

/-- `detect_format`: the first header line fixes the detected columns; the
issuer is guessed from substrings of the whole lowercased text. -/
def detectFormat (text : String) : Option String × List String :=
  match (linesOf text).find? (fun l => isHeaderLine l) with
  | none => (none, [])
  | some l =>
    let columns := headerKeywords.filter fun k => containsStr (lowerStr l) k
    let lower := lowerStr text
    let fmt :=
      if containsStr lower "bank of america" then "Bank of America"
      else if containsStr lower "chase" then "Chase"
      else if containsStr lower "wells fargo" then "Wells Fargo"
      else if containsStr lower "citi" then "Citi"
      else "Generic"
    (some fmt, columns)

structure PdfScanState where
  txs : List PdfTransaction
  inSection : Bool
  pastSummary : Bool
  valid : Nat
  total : Nat
  currentCategory : Option String

/-- One line of the main extraction loop of `preview_pdf`. -/
def pdfMainStep (st : PdfScanState) (line : String) : PdfScanState :=
  let trimmed := trimStr line
  if trimmed.data.isEmpty then st
  else if isTransactionSectionStart trimmed then
    { st with inSection := true, pastSummary := true }
  else if isHeaderLine trimmed then { st with pastSummary := true }
  else
    match extractCategoryHeader trimmed with
    | some category => { st with currentCategory := some category }
    | none =>
      if shouldSkipLine trimmed then st
      else if startsWithDate trimmed then
        match parseTransactionLine trimmed st.currentCategory with
        | some tx =>
          if st.pastSummary || st.inSection || st.txs.isEmpty then
            { st with total := st.total + 1, valid := st.valid + 1, txs := st.txs ++ [tx] }
          else { st with total := st.total + 1, valid := st.valid + 1 }
        | none => { st with total := st.total + 1 }
      else st

/-- One line of the fallback loop (no section gating). -/
def pdfFallbackStep (st : PdfScanState) (line : String) : PdfScanState :=
  let trimmed := trimStr line
  if trimmed.data.isEmpty then st
  else
    match extractCategoryHeader trimmed with
    | some category => { st with currentCategory := some category }
    | none =>
      if shouldSkipLine trimmed then st
      else if startsWithDate trimmed then
        match parseTransactionLine trimmed st.currentCategory with
        | some tx =>
          { st with total := st.total + 1, valid := st.valid + 1, txs := st.txs ++ [tx] }
        | none => { st with total := st.total + 1 }
      else st

/-- `preview_pdf` after text extraction (`extract_text` is the delegated
PDFium call; this function receives its output).  Text whose trimmed byte
length is under 100 is rejected as image-based; otherwise the main loop
runs, the fallback loop replaces its results when fewer than 3 transactions
survive, and the confidence is the parse success rate over date-led lines. -/
def previewPdfFromText (text : String) (limit : Nat) : Except AppError PdfPreview :=
  if byteLen (trimStr text) < 100 then
    .error (.other
      "PDF appears to be image-based or contains very little text. Please export as CSV from your bank.")
  else
    let fc := detectFormat text
    let lines := linesOf text
    let st0 : PdfScanState := ⟨[], false, false, 0, 0, none⟩
    let stMain := lines.foldl pdfMainStep st0
    let st :=
      if stMain.txs.length < 3 then lines.foldl pdfFallbackStep st0
      else stMain
    let confidence : ℚ := if 0 < st.total then (st.valid : ℚ) / (st.total : ℚ) else 0
    .ok { transactions := st.txs.take limit, totalRows := st.txs.length,
          detectedFormat := fc.1, detectedColumns := fc.2,
          rawTextSample := ⟨text.data.take 500⟩, confidence := confidence }

/-- `parse_pdf` (after text extraction): a preview with no row limit. -/
def parsePdfFromText (text : String) : Except AppError (List PdfTransaction) :=
  (previewPdfFromText text (10 ^ 9)).map (·.transactions)

/-! ## Recurring series detector — `commands/recurring.rs` -/

/-- One row of the detector's SQL query (non-deleted, non-transfer rows with
a non-empty payee from the last 365 days, joined with the account name,
ordered by payee then date). -/
structure RTx where
  id : String
  accountId : String
  date : String
  amount : Int
  payee : String
  categoryId : Option String
  accountName : String
deriving Repr, DecidableEq

structure DetectedRecurring where
  payee : String
  normalizedPayee : String
  averageAmount : Int
  frequency : String
  frequencyDays : Int
  occurrences : Nat
  lastDate : String
  nextExpectedDate : String
  accountId : String
  accountName : String
  categoryId : Option String
  transactions : List (String × String × Int)
deriving Repr, DecidableEq

/-- `Regex::replace_all(pat, "")`: drop successive leftmost non-overlapping
matches of the given anchored matcher (fuelled scan; every matcher used
consumes at least one character per match). -/
def replaceAllF (m : List Char → Option Nat) : Nat → List Char → List Char
  | 0, _ => []
  | _, [] => []
  | fuel + 1, c :: t =>
    match m (c :: t) with
    | some (len + 1) => replaceAllF m fuel ((c :: t).drop (len + 1))
    | _ => c :: replaceAllF m fuel t

def replaceAll (m : List Char → Option Nat) (s : List Char) : List Char :=
  replaceAllF m s.length s

/-- Matcher for `\d\x7b6,\x7d` (long digit runs / reference ids). -/
def matchLongDigits (s : List Char) : Option Nat :=
  let r := digitRun s
  if 6 ≤ r then some r else none

/-- Matcher for `#\d+`. -/
def matchHashDigits (s : List Char) : Option Nat :=
  match s with
  | '#' :: t => let r := digitRun t; if 1 ≤ r then some (1 + r) else none
  | _ => none

/-- Matcher for `\*\d+` (masked card suffixes). -/
def matchStarDigits (s : List Char) : Option Nat :=
  match s with
  | '*' :: t => let r := digitRun t; if 1 ≤ r then some (1 + r) else none
  | _ => none

/-- Split on whitespace runs (Rust `split_whitespace`); every step consumes
at least one character, so the fuel `s.length` is never exhausted. -/
def splitWsF : Nat → List Char → List (List Char)
  | 0, _ => []
  | _, [] => []
  | fuel + 1, c :: t =>
    if c.isWhitespace then splitWsF fuel t
    else
      (c :: t.takeWhile (fun x => !x.isWhitespace)) ::
        splitWsF fuel (t.drop (t.takeWhile (fun x => !x.isWhitespace)).length)

def splitWs (s : List Char) : List (List Char) :=
  splitWsF s.length s

/-- `normalize_payee`: lowercase, delete date-like substrings, long digit
runs, `#digits` and `*digits` (in source order), then collapse whitespace
and trim. -/
def normalizePayee (payee : String) : String :=
  let n0 := (lowerStr payee).data
  let n1 := replaceAll (fun s => (matchSepDate '/' s).map (·.1)) n0
  let n2 := replaceAll (fun s => (matchSepDate '-' s).map (·.1)) n1
  let n3 := replaceAll (fun s => (matchIsoDate s).map (·.1)) n2
  let n4 := replaceAll matchLongDigits n3
  let n5 := replaceAll matchHashDigits n4
  let n6 := replaceAll matchStarDigits n5
  trimStr ⟨joinSpaces (splitWs n6)⟩

/-- Grouping key: normalized payee (discarded under 3 bytes), account id,
and the $5 amount bucket `(|amount| / 500) * 500` (the source concatenates
the three parts with `|` into the `HashMap` key; the triple carries the same
information). -/
def recurringGroupKey (t : RTx) : Option (String × String × Nat) :=
  let normalized := normalizePayee t.payee
  if byteLen normalized < 3 then none
  else some (normalized, t.accountId, t.amount.natAbs / 500 * 500)

/-- Association-list grouping in first-appearance order (the source's
`HashMap` iterates in arbitrary order; the final sort makes the output
order-independent up to ties). -/
def addToGroups (gs : List ((String × String × Nat) × List RTx))
    (k : String × String × Nat) (t : RTx) :
    List ((String × String × Nat) × List RTx) :=
  match gs with
  | [] => [(k, [t])]
  | (k', l) :: rest =>
    if k' = k then (k', l ++ [t]) :: rest else (k', l) :: addToGroups rest k t

def groupsOf (txs : List RTx) : List ((String × String × Nat) × List RTx) :=
  txs.foldl
    (fun gs t =>
      match recurringGroupKey t with
      | some k => addToGroups gs k t
      | none => gs)
    []

/-- Consecutive differences `dates[i] - dates[i-1]`. -/
def consecutiveDiffs : List Int → List Int
  | a :: b :: t => (b - a) :: consecutiveDiffs (b :: t)
  | _ => []

/-- `detect_frequency` over serial day numbers: positive gaps only, mean gap
classified into the weekly/biweekly/monthly/quarterly/yearly buckets (the
`f64` mean is exact as a rational). -/
def detectFrequency (dates : List Int) : Option (String × Int) :=
  if dates.length < 3 then none
  else
    let intervals := (consecutiveDiffs dates).filter (0 < ·)
    if intervals.isEmpty then none
    else
      let avg : ℚ := (intervals.sum : ℚ) / (intervals.length : ℚ)
      if 5 ≤ avg ∧ avg ≤ 9 then some ("weekly", 7)
      else if 12 ≤ avg ∧ avg ≤ 17 then some ("biweekly", 14)
      else if 25 ≤ avg ∧ avg ≤ 35 then some ("monthly", 30)
      else if 85 ≤ avg ∧ avg ≤ 100 then some ("quarterly", 91)
      else if 350 ≤ avg ∧ avg ≤ 380 then some ("yearly", 365)
      else none

/-- The body of the per-group loop of `detect_recurring_transactions`:
groups of fewer than 3 members (before or after date parsing) are dropped,
dates are parsed with chrono `%Y-%m-%d` and sorted ascending (stable), the
frequency is classified, and the report row is assembled.  The average
amount uses Rust's truncating `i64` division. -/
def processGroup (txs : List RTx) : Option DetectedRecurring :=
  if txs.length < 3 then none
  else
    let dated :=
      List.insertionSort (fun a b => a.2 ≤ b.2)
        (txs.filterMap fun t =>
          (chronoParseDate t.date "%Y-%m-%d").map fun d => (t, dateTripleDays d))
    if dated.length < 3 then none
    else
      match detectFrequency (dated.map (·.2)), dated.head?, dated.getLast? with
      | some (frequency, freqDays), some firstTx, some lastTx =>
        let totalAmount : Int := (dated.map (·.1.amount)).sum
        let avgAmount := totalAmount.tdiv (dated.length : Int)
        let nextDate := lastTx.2 + freqDays
        some { payee := firstTx.1.payee,
               normalizedPayee := normalizePayee firstTx.1.payee,
               averageAmount := avgAmount,
               frequency := frequency,
               frequencyDays := freqDays,
               occurrences := dated.length,
               lastDate := lastTx.1.date,
               nextExpectedDate := formatEpochDays nextDate,
               accountId := firstTx.1.accountId,
               accountName := firstTx.1.accountName,
               categoryId := firstTx.1.categoryId,
               transactions := dated.map fun p => (p.1.id, p.1.date, p.1.amount) }
      | _, _, _ => none

/-- `detect_recurring_transactions` over the queried rows: group, classify,
and sort the reports by next expected date ascending. -/
def detectRecurring (txs : List RTx) : List DetectedRecurring :=
  List.insertionSort (fun a b => a.nextExpectedDate ≤ b.nextExpectedDate)
    ((groupsOf txs).filterMap fun g => processGroup g.2)

/-! ## Concrete data used by counterexamples and witnesses -/

/-- A single-amount-column mapping with ISO dates. -/
def csvDemoMapping : ColumnMapping :=
  { dateColumn := 0, amountColumn := 1, debitColumn := none, creditColumn := none,
    payeeColumn := none, memoColumn := none, categoryColumn := none,
    dateFormat := "%Y-%m-%d", invertAmounts := false }

/-- Text with 60 non-whitespace characters spread over 119 trimmed bytes. -/
def lowSignalText : String :=
  ⟨(List.replicate 59 ['z', ' ']).flatten ++ ['z']⟩

def c7Rule : CategoryRule :=
  { id := "r1", categoryId := "cat-stream", ruleType := "payee_contains",
    pattern := "netflix", amountMin := none, amountMax := none,
    accountId := none, priority := 1, isActive := true }

def c7Tx : Txn :=
  { id := "t1", accountId := "a1", date := "2025-01-01", amount := -1599,
    payee := some "NETFLIX SUBSCRIPTION", categoryId := none,
    transferId := none, transferAccountId := none, deletedAt := none,
    importSource := none, importBatchId := none,
    createdAt := "c", updatedAt := "u" }

/-! ## Theorems -/

/-- C6: the heuristic line extractor parses
`"01/15/25 COFFEE SHOP PALO ALTO, CA 5.50"` to date 2025-01-15, amount
`-550` (unsuffixed amounts are charges, hence negative) and a description
containing "COFFEE", and parses the `CR`-suffixed line to amount `+11319`
(credits are positive). -/
theorem pdf_line_extraction_examples :
    parseTransactionLine "01/15/25 COFFEE SHOP PALO ALTO, CA 5.50" none =
      some { date := "2025-01-15", description := "COFFEE SHOP PALO ALTO, CA",
             amount := -550, runningBalance := none,
             rawLine := "01/15/25 COFFEE SHOP PALO ALTO, CA 5.50", category := none } ∧
    containsStr "COFFEE SHOP PALO ALTO, CA" "COFFEE" = true ∧
    (parseTransactionLine "01/29/24 SQ *SELF EDGE WEB STOR San Francisco, CA 113.19CR"
        (some "Dining")).map (fun t => t.amount) = some 11319 :=
  ⟨by decide, by decide, by decide⟩

/-- C4 counterexample: the unparseable amount string `"abc"` does not fail:
`parse_amount` (whose return type `i64` cannot carry an error at all)
returns `0`, and a row carrying it parses successfully into a transaction of
amount `0`. -/
theorem csv_parse_amount_returns_zero_counterexample :
    csvParseAmount "abc" = 0 ∧
    parseCsv ["Date", "Amount"] [.ok ["2025-01-15", "abc"]] csvDemoMapping =
      .ok [{ date := "2025-01-15", amount := 0, payee := none, memo := none,
             categoryHint := none,
             rawData := [("Date", "2025-01-15"), ("Amount", "abc")] }] :=
  ⟨by decide, by decide⟩

/-- C4 amended: `csv_parser::parse_amount` is total and never fails; an
input whose cleaned form is unparseable as a decimal yields `0` rather than
a format error. -/
theorem csv_parse_amount_total (s : String)
    (h : parseSignedDecimal (csvCleanAmount s) = none) :
    csvParseAmount s = 0 := by
  simp only [csvParseAmount, h]
  split <;> rfl

theorem csv_parse_amount_total_witness :
    parseSignedDecimal (csvCleanAmount "abc") = none ∧ csvParseAmount "abc" = 0 :=
  ⟨by decide, csv_parse_amount_total "abc" (by decide)⟩

/-- C3 counterexample: each surrounding row parses on its own, but a batch
whose middle record fails at the reader level makes the whole `parse_csv`
fail — the rows before and after the malformed one are not produced. -/
theorem csv_row_failure_aborts_counterexample :
    (parseCsv ["Date", "Amount"] [.ok ["2025-01-15", "1.00"]] csvDemoMapping).isOk = true ∧
    (parseCsv ["Date", "Amount"] [.ok ["2025-01-16", "2.00"]] csvDemoMapping).isOk = true ∧
    parseCsv ["Date", "Amount"]
        [.ok ["2025-01-15", "1.00"], .error "bad quoting", .ok ["2025-01-16", "2.00"]]
        csvDemoMapping =
      .error (.other "Failed to read record: bad quoting") :=
  ⟨by decide, by decide, by decide⟩

/-- C3 amended: a malformed data row is fatal for the whole tabular parse
(the per-record `?` aborts at the first reader-level failure), so a batch
containing any malformed record yields an error and no partial results. -/
theorem csv_row_failure_fatal (headers : List String) (records : List CsvRecord)
    (mapping : ColumnMapping) (h : ∃ r ∈ records, r.isOk = false) :
    ∃ e, parseCsv headers records mapping = .error e := by
  induction records with
  | nil => obtain ⟨r, hr, _⟩ := h; cases hr
  | cons r rs ih =>
    obtain ⟨r', hr', hbad⟩ := h
    cases r with
    | error e => exact ⟨.other ("Failed to read record: " ++ e), rfl⟩
    | ok fields =>
      have hrs : r' ∈ rs := by
        rcases List.mem_cons.mp hr' with h1 | h1
        · subst h1; simp [Except.isOk, Except.toBool] at hbad
        · exact h1
      obtain ⟨e, he⟩ := ih ⟨r', hrs, hbad⟩
      cases hrow : parseCsvRow headers mapping fields with
      | error e' => exact ⟨e', by unfold parseCsv; simp [hrow]⟩
      | ok tx => exact ⟨e, by unfold parseCsv; simp [hrow, he]⟩

theorem csv_row_failure_fatal_witness :
    ∃ e, parseCsv ["Date", "Amount"] [Except.error "boom"] csvDemoMapping = .error e :=
  csv_row_failure_fatal ["Date", "Amount"] [Except.error "boom"] csvDemoMapping
    ⟨Except.error "boom", List.mem_singleton.mpr rfl, by decide⟩

set_option maxRecDepth 100000 in
/-- C5 counterexample: a document whose extracted text has only 60
non-whitespace characters (under the claimed 100) is not rejected — the
check is on the trimmed length including interior whitespace — and the
parser silently returns a preview with an empty transaction list. -/
theorem pdf_low_signal_counterexample :
    nonWsCount lowSignalText < 100 ∧
    (previewPdfFromText lowSignalText 20).isOk = true ∧
    (previewPdfFromText lowSignalText 20).map (fun p => p.transactions) = .ok [] :=
  ⟨by decide, by decide, by decide⟩

/-- C5 amended: the document parser (preview and parse share the check)
rejects exactly the texts whose trimmed byte length — interior whitespace
included — is under 100, with the hard image-based/unreadable error. -/
theorem pdf_low_signal_trimmed_threshold (text : String) (limit : Nat)
    (h : byteLen (trimStr text) < 100) :
    previewPdfFromText text limit =
      .error (.other
        "PDF appears to be image-based or contains very little text. Please export as CSV from your bank.") := by
  unfold previewPdfFromText
  rw [if_pos h]

theorem pdf_low_signal_trimmed_threshold_witness :
    byteLen (trimStr "short") < 100 ∧
    previewPdfFromText "short" 20 =
      .error (.other
        "PDF appears to be image-based or contains very little text. Please export as CSV from your bank.") :=
  ⟨by decide, pdf_low_signal_trimmed_threshold "short" 20 (by decide)⟩

/-- C7: evaluating `rules.rs::apply_category_rules` at the failing input —
one uncategorized transaction matched by one active rule, scoped to its id.
The first call categorizes it (count 1); the claim requires the second call
to return 0, but the scoped candidate query omits `category_id IS NULL`
(contradicting the adjacent "Get uncategorized transactions" comment and
the import-path implementation), so the second call re-selects and
re-counts the same transaction and returns 1. -/
theorem apply_rules_scoped_not_idempotent :
    (applyCategoryRulesCmd (fun _ _ => false) [c7Rule] (some ["t1"]) [c7Tx] "n1").2 = 1 ∧
    (applyCategoryRulesCmd (fun _ _ => false) [c7Rule] (some ["t1"])
        (applyCategoryRulesCmd (fun _ _ => false) [c7Rule] (some ["t1"]) [c7Tx] "n1").1
        "n2").2 = 1 :=
  ⟨by decide, by decide⟩

/-- The per-row updater applied to transaction `a` by `link_transfer`. -/
def linkUpdateA (aId freshId acc now : String) (t : Txn) : Txn :=
  if t.id = aId then
    { t with transferId := some freshId, transferAccountId := some acc, updatedAt := now }
  else t

theorem linkUpdateA_id (aId freshId acc now : String) (t : Txn) :
    (linkUpdateA aId freshId acc now t).id = t.id := by
  unfold linkUpdateA
  split <;> rfl

theorem find?_id_map_linkUpdate (state : List Txn) (p : Txn → Bool)
    (aId freshId acc now : String)
    (hp : ∀ t, p (linkUpdateA aId freshId acc now t) = p t) :
    (state.map (linkUpdateA aId freshId acc now)).find? p =
      (state.find? p).map (linkUpdateA aId freshId acc now) := by
  rw [List.find?_map]
  have hfun : (p ∘ linkUpdateA aId freshId acc now) = p := funext hp
  rw [hfun]

/-- C10: `link_transfer` validates nothing about the pair.  For any two
distinct existing transaction ids — regardless of account equality, amount
opposition, soft deletion, or existing transfer links, none of which appear
as hypotheses — it succeeds, gives both rows the same freshly generated
transfer id, sets each row's `transfer_account_id` to the other row's
account id, and leaves every other row unchanged. -/
theorem link_transfer_no_validation (state : List Txn)
    (aId bId freshId now : String) (ta tb : Txn)
    (ha : state.find? (fun t => t.id = aId) = some ta)
    (hb : state.find? (fun t => t.id = bId) = some tb)
    (hne : aId ≠ bId) :
    ∃ st', linkTransfer state aId bId freshId now = .ok st' ∧
      st'.find? (fun t => t.id = aId) =
        some { ta with transferId := some freshId,
                       transferAccountId := some tb.accountId, updatedAt := now } ∧
      st'.find? (fun t => t.id = bId) =
        some { tb with transferId := some freshId,
                       transferAccountId := some ta.accountId, updatedAt := now } ∧
      ∀ t ∈ state, t.id ≠ aId → t.id ≠ bId → t ∈ st' := by
  have hta : ta.id = aId := by
    have := List.find?_some ha
    exact of_decide_eq_true this
  have htb : tb.id = bId := by
    have := List.find?_some hb
    exact of_decide_eq_true this
  refine ⟨(state.map (linkUpdateA aId freshId tb.accountId now)).map
      (linkUpdateA bId freshId ta.accountId now), ?_, ?_, ?_, ?_⟩
  · unfold linkTransfer
    rw [ha, hb]
    rfl
  · rw [find?_id_map_linkUpdate _ _ _ _ _ _ (fun t => by simp [linkUpdateA_id]),
        find?_id_map_linkUpdate _ _ _ _ _ _ (fun t => by simp [linkUpdateA_id]), ha]
    show some (linkUpdateA bId freshId ta.accountId now
        (linkUpdateA aId freshId tb.accountId now ta)) = _
    unfold linkUpdateA
    rw [if_pos hta]
    rw [if_neg (by simpa [hta] using hne)]
  · rw [find?_id_map_linkUpdate _ _ _ _ _ _ (fun t => by simp [linkUpdateA_id]),
        find?_id_map_linkUpdate _ _ _ _ _ _ (fun t => by simp [linkUpdateA_id]), hb]
    show some (linkUpdateA bId freshId ta.accountId now
        (linkUpdateA aId freshId tb.accountId now tb)) = _
    unfold linkUpdateA
    rw [if_neg (show ¬tb.id = aId from by rw [htb]; exact fun h => hne h.symm)]
    rw [if_pos htb]
  · intro t ht hta' htb'
    have h1 : linkUpdateA aId freshId tb.accountId now t = t := by
      unfold linkUpdateA; rw [if_neg hta']
    have h2 : linkUpdateA bId freshId ta.accountId now t = t := by
      unfold linkUpdateA; rw [if_neg htb']
    have hm := List.mem_map_of_mem (linkUpdateA aId freshId tb.accountId now) ht
    rw [h1] at hm
    have hm2 := List.mem_map_of_mem (linkUpdateA bId freshId ta.accountId now) hm
    rw [h2] at hm2
    exact hm2

theorem queryTransferPool_pair (a b : Txn) (cutoff : String)
    (ha1 : a.deletedAt = none) (ha2 : a.transferId = none)
    (ha3 : strLeb cutoff a.date = true)
    (hb1 : b.deletedAt = none) (hb2 : b.transferId = none)
    (hb3 : strLeb cutoff b.date = true) :
    queryTransferPool [a, b] cutoff =
      if strLeb b.date a.date = true then [a, b] else [b, a] := by
  unfold queryTransferPool
  have hfa : (a.deletedAt = none && a.transferId = none && strLeb cutoff a.date) = true := by
    simp [ha1, ha2, ha3]
  have hfb : (b.deletedAt = none && b.transferId = none && strLeb cutoff b.date) = true := by
    simp [hb1, hb2, hb3]
  have hfilter : List.filter
      (fun t => t.deletedAt = none && t.transferId = none && strLeb cutoff t.date)
      [a, b] = [a, b] := by
    simp only [List.filter_cons, List.filter_nil, hfa, hfb, if_true]
  rw [hfilter]
  simp only [List.insertionSort, List.orderedInsert]

theorem calculatePayeeSimilarity_both_keyword (pa pb : String)
    (hka : containsStr (lowerStr pa) "zelle" = true)
    (hkb : containsStr (lowerStr pb) "zelle" = true) :
    calculatePayeeSimilarity (some pa) (some pb) = 0.8 := by
  unfold calculatePayeeSimilarity
  have hza : transferKeywords.any (fun k => containsStr (lowerStr pa) k) = true :=
    List.any_eq_true.mpr ⟨"zelle", by decide, hka⟩
  have hzb : transferKeywords.any (fun k => containsStr (lowerStr pb) k) = true :=
    List.any_eq_true.mpr ⟨"zelle", by decide, hkb⟩
  simp [hza, hzb]

theorem evalTransferPair_zelle_one_day (x y : Txn)
    (hacct : x.accountId ≠ y.accountId)
    (hamt : x.amount = -y.amount)
    (dx dy : Nat × Nat × Nat)
    (hdx : chronoParseDate x.date "%Y-%m-%d" = some dx)
    (hdy : chronoParseDate y.date "%Y-%m-%d" = some dy)
    (hdiff : (dateTripleDays dx - dateTripleDays dy).natAbs = 1)
    (px py : String)
    (hpx : x.payee = some px) (hkx : containsStr (lowerStr px) "zelle" = true)
    (hpy : y.payee = some py) (hky : containsStr (lowerStr py) "zelle" = true) :
    evalTransferPair (x, y) = some ⟨x, y, 4 / 5⟩ := by
  simp only [evalTransferPair]
  rw [if_neg hacct]
  rw [if_neg (not_not_intro hamt)]
  rw [hdx, hdy]
  dsimp only
  rw [hdiff]
  rw [if_neg (by norm_num)]
  rw [hpx, hpy, calculatePayeeSimilarity_both_keyword px py hkx hky]
  rw [if_pos (by norm_num)]
  have hconf :
      (1 - (((((1 : Nat) : Int)) : ℚ)) / 5) * 0.6 + (0.8 : ℚ) * 0.4 = 4 / 5 := by
    push_cast
    norm_num
  rw [hconf]

theorem detectTransfers_pool_pair (x y : Txn) (l : List Txn) (cutoff : String)
    (hpool : queryTransferPool l cutoff = [x, y])
    (hacct : x.accountId ≠ y.accountId)
    (hamt : x.amount = -y.amount)
    (dx dy : Nat × Nat × Nat)
    (hdx : chronoParseDate x.date "%Y-%m-%d" = some dx)
    (hdy : chronoParseDate y.date "%Y-%m-%d" = some dy)
    (hdiff : (dateTripleDays dx - dateTripleDays dy).natAbs = 1)
    (px py : String)
    (hpx : x.payee = some px) (hkx : containsStr (lowerStr px) "zelle" = true)
    (hpy : y.payee = some py) (hky : containsStr (lowerStr py) "zelle" = true) :
    detectTransfersCmd l cutoff = [⟨x, y, 4 / 5⟩] := by
  unfold detectTransfersCmd detectTransfers
  rw [hpool]
  have hpairs : ordPairs [x, y] = [(x, y)] := rfl
  rw [hpairs]
  rw [show List.filterMap evalTransferPair [(x, y)] = [⟨x, y, 4 / 5⟩] by
    rw [List.filterMap_cons]
    rw [evalTransferPair_zelle_one_day x y hacct hamt dx dy hdx hdy hdiff
      px py hpx hkx hpy hky]
    rfl]
  rfl

def zelleA : Txn :=
  { id := "za", accountId := "checking", date := "2025-06-02", amount := 5000,
    payee := some "Zelle payment", categoryId := none, transferId := none,
    transferAccountId := none, deletedAt := none, importSource := none,
    importBatchId := none, createdAt := "c", updatedAt := "u" }

def zelleB : Txn :=
  { id := "zb", accountId := "savings", date := "2025-06-01", amount := -5000,
    payee := some "ZELLE TO JOHN", categoryId := none, transferId := none,
    transferAccountId := none, deletedAt := none, importSource := none,
    importBatchId := none, createdAt := "c", updatedAt := "u" }

/-- C2 counterexample: the claim's own scenario — different accounts,
`+5000`/`-5000`, dates one day apart, both payees containing "zelle" —
produces the pair with confidence exactly `0.8`, which is strictly below the
claimed `0.88` bound. -/
theorem transfer_zelle_confidence_counterexample :
    detectTransfersCmd [zelleA, zelleB] "2025-05-01" =
      [{ transactionA := zelleA, transactionB := zelleB, confidence := 4 / 5 }] ∧
    (4 : ℚ) / 5 < 22 / 25 := by
  constructor
  · apply detectTransfers_pool_pair zelleA zelleB [zelleA, zelleB] "2025-05-01"
      ?_ (by decide) (by decide) (2025, 6, 2) (2025, 6, 1) (by decide) (by decide)
      (by decide) "Zelle payment" "ZELLE TO JOHN" rfl (by decide) rfl (by decide)
    rw [queryTransferPool_pair zelleA zelleB "2025-05-01" rfl rfl (by decide) rfl rfl
      (by decide)]
    rw [if_pos (by decide)]
  · norm_num

/-- C2 amended: in the claim's scenario the pair does appear in the
results, but with confidence exactly `0.8 = 0.6 * (1 - 1/5) + 0.4 * 0.8` —
above the `0.5` inclusion threshold yet below `0.88` (which would require
equal dates). -/
theorem transfer_zelle_pair_in_results (a b : Txn) (cutoff : String)
    (ha1 : a.deletedAt = none) (ha2 : a.transferId = none)
    (ha3 : strLeb cutoff a.date = true)
    (hb1 : b.deletedAt = none) (hb2 : b.transferId = none)
    (hb3 : strLeb cutoff b.date = true)
    (hacct : a.accountId ≠ b.accountId)
    (hamta : a.amount = 5000) (hamtb : b.amount = -5000)
    (da db : Nat × Nat × Nat)
    (hda : chronoParseDate a.date "%Y-%m-%d" = some da)
    (hdb : chronoParseDate b.date "%Y-%m-%d" = some db)
    (hdiff : (dateTripleDays da - dateTripleDays db).natAbs = 1)
    (pa pb : String)
    (hpa : a.payee = some pa) (hka : containsStr (lowerStr pa) "zelle" = true)
    (hpb : b.payee = some pb) (hkb : containsStr (lowerStr pb) "zelle" = true) :
    ∃ c ∈ detectTransfersCmd [a, b] cutoff,
      ((c.transactionA = a ∧ c.transactionB = b) ∨
       (c.transactionA = b ∧ c.transactionB = a)) ∧
      c.confidence = 4 / 5 ∧ (1 / 2 : ℚ) < c.confidence := by
  have hpool := queryTransferPool_pair a b cutoff ha1 ha2 ha3 hb1 hb2 hb3
  have hamt : a.amount = -b.amount := by rw [hamta, hamtb]; norm_num
  by_cases hord : strLeb b.date a.date = true
  · rw [if_pos hord] at hpool
    have heq := detectTransfers_pool_pair a b [a, b] cutoff hpool hacct hamt
      da db hda hdb hdiff pa pb hpa hka hpb hkb
    refine ⟨⟨a, b, 4 / 5⟩, ?_, ⟨Or.inl ⟨rfl, rfl⟩, rfl, by norm_num⟩⟩
    rw [heq]
    exact List.mem_singleton.mpr rfl
  · rw [if_neg hord] at hpool
    have hamt' : b.amount = -a.amount := by rw [hamta, hamtb]
    have hdiff' : (dateTripleDays db - dateTripleDays da).natAbs = 1 := by omega
    have heq := detectTransfers_pool_pair b a [a, b] cutoff hpool (Ne.symm hacct) hamt'
      db da hdb hda hdiff' pb pa hpb hkb hpa hka
    refine ⟨⟨b, a, 4 / 5⟩, ?_, ⟨Or.inr ⟨rfl, rfl⟩, rfl, by norm_num⟩⟩
    rw [heq]
    exact List.mem_singleton.mpr rfl

theorem transfer_zelle_pair_in_results_witness :
    ∃ c ∈ detectTransfersCmd [zelleA, zelleB] "2025-05-01",
      ((c.transactionA = zelleA ∧ c.transactionB = zelleB) ∨
       (c.transactionA = zelleB ∧ c.transactionB = zelleA)) ∧
      c.confidence = 4 / 5 ∧ (1 / 2 : ℚ) < c.confidence :=
  transfer_zelle_pair_in_results zelleA zelleB "2025-05-01" rfl rfl (by decide)
    rfl rfl (by decide) (by decide) (by decide) (by decide)
    (2025, 6, 2) (2025, 6, 1) (by decide) (by decide) (by decide)
    "Zelle payment" "ZELLE TO JOHN" rfl (by decide) rfl (by decide)

theorem evalTransferPair_some {p : Txn × Txn} {c : TransferCandidate}
    (h : evalTransferPair p = some c) :
    c.transactionA = p.1 ∧ c.transactionB = p.2 ∧
    p.1.accountId ≠ p.2.accountId ∧ p.1.amount = -p.2.amount ∧
    ∃ da db, chronoParseDate p.1.date "%Y-%m-%d" = some da ∧
      chronoParseDate p.2.date "%Y-%m-%d" = some db ∧
      (dateTripleDays da - dateTripleDays db).natAbs ≤ 5 := by
  simp only [evalTransferPair] at h
  by_cases h1 : p.1.accountId = p.2.accountId
  · rw [if_pos h1] at h; exact absurd h (by simp)
  rw [if_neg h1] at h
  by_cases h2 : p.1.amount ≠ -p.2.amount
  · rw [if_pos h2] at h; exact absurd h (by simp)
  rw [if_neg h2] at h
  push_neg at h2
  cases hda : chronoParseDate p.1.date "%Y-%m-%d" with
  | none => rw [hda] at h; exact absurd h (by simp)
  | some da =>
    rw [hda] at h
    cases hdb : chronoParseDate p.2.date "%Y-%m-%d" with
    | none => rw [hdb] at h; exact absurd h (by simp)
    | some db =>
      rw [hdb] at h
      dsimp only at h
      by_cases h3 : (5 : Int) < ((dateTripleDays da - dateTripleDays db).natAbs : Int)
      · rw [if_pos h3] at h; exact absurd h (by simp)
      rw [if_neg h3] at h
      by_cases h4 : (1 / 2 : ℚ) <
          (1 - (((dateTripleDays da - dateTripleDays db).natAbs : Int) : ℚ) / 5) * 0.6 +
            calculatePayeeSimilarity p.1.payee p.2.payee * 0.4
      · rw [if_pos h4] at h
        injection h with h
        subst h
        refine ⟨rfl, rfl, h1, h2, da, db, rfl, rfl, ?_⟩
        omega
      · rw [if_neg h4] at h; exact absurd h (by simp)

/-- C9: every candidate `detect_transfers` reports joins two transactions
from different accounts with exactly opposite amounts and parseable dates at
most 5 days apart (so a `+5000`/`-4999` pair can never appear), and the
result is sorted by confidence descending with at most 20 entries. -/
theorem detect_transfers_invariants (state : List Txn) (cutoff : String) :
    (∀ c ∈ detectTransfersCmd state cutoff,
       c.transactionA.accountId ≠ c.transactionB.accountId ∧
       c.transactionA.amount = -c.transactionB.amount ∧
       (∃ da db, chronoParseDate c.transactionA.date "%Y-%m-%d" = some da ∧
          chronoParseDate c.transactionB.date "%Y-%m-%d" = some db ∧
          (dateTripleDays da - dateTripleDays db).natAbs ≤ 5) ∧
       ¬(c.transactionA.amount = 5000 ∧ c.transactionB.amount = -4999) ∧
       ¬(c.transactionA.amount = -4999 ∧ c.transactionB.amount = 5000)) ∧
    (detectTransfersCmd state cutoff).length ≤ 20 ∧
    List.Pairwise (fun x y : TransferCandidate => y.confidence ≤ x.confidence)
      (detectTransfersCmd state cutoff) := by
  haveI htot : IsTotal TransferCandidate
      (fun x y => y.confidence ≤ x.confidence) :=
    ⟨fun a b => le_total b.confidence a.confidence⟩
  haveI htrans : IsTrans TransferCandidate
      (fun x y => y.confidence ≤ x.confidence) :=
    ⟨fun _ _ _ hab hbc => le_trans hbc hab⟩
  refine ⟨?_, ?_, ?_⟩
  · intro c hc
    have hc1 : c ∈ List.insertionSort
        (fun x y : TransferCandidate => y.confidence ≤ x.confidence)
        ((ordPairs (queryTransferPool state cutoff)).filterMap evalTransferPair) :=
      (List.take_sublist 20 _).mem hc
    have hc2 : c ∈ (ordPairs (queryTransferPool state cutoff)).filterMap
        evalTransferPair :=
      (List.perm_insertionSort _ _).mem_iff.mp hc1
    obtain ⟨p, _, hp⟩ := List.mem_filterMap.mp hc2
    obtain ⟨hA, hB, hacct, hamt, hdates⟩ := evalTransferPair_some hp
    rw [hA, hB]
    refine ⟨hacct, hamt, hdates, ?_, ?_⟩
    · rintro ⟨h5, h6⟩
      rw [h5, h6] at hamt
      omega
    · rintro ⟨h5, h6⟩
      rw [h5, h6] at hamt
      omega
  · exact List.length_take_le 20 _
  · show List.Pairwise (fun x y : TransferCandidate => y.confidence ≤ x.confidence)
      ((List.insertionSort (fun x y : TransferCandidate => y.confidence ≤ x.confidence)
        ((ordPairs (queryTransferPool state cutoff)).filterMap evalTransferPair)).take 20)
    exact List.Pairwise.sublist (List.take_sublist 20 _)
      (List.sorted_insertionSort (fun x y : TransferCandidate =>
        y.confidence ≤ x.confidence) _)

theorem detect_transfers_invariants_witness :
    (detectTransfersCmd [zelleA, zelleB] "2025-05-01").length ≤ 20 ∧
    zelleA.accountId ≠ zelleB.accountId ∧
    zelleA.amount = -zelleB.amount :=
  have hmem : (⟨zelleA, zelleB, 4 / 5⟩ : TransferCandidate) ∈
      detectTransfersCmd [zelleA, zelleB] "2025-05-01" := by
    rw [detectTransfers_pool_pair zelleA zelleB [zelleA, zelleB] "2025-05-01"
      (by rw [queryTransferPool_pair zelleA zelleB "2025-05-01" rfl rfl (by decide)
        rfl rfl (by decide)]; rw [if_pos (by decide)])
      (by decide) (by decide) (2025, 6, 2) (2025, 6, 1) (by decide) (by decide)
      (by decide) "Zelle payment" "ZELLE TO JOHN" rfl (by decide) rfl (by decide)]
    exact List.mem_singleton.mpr rfl
  ⟨(detect_transfers_invariants [zelleA, zelleB] "2025-05-01").2.1,
   ((detect_transfers_invariants [zelleA, zelleB] "2025-05-01").1 _ hmem).1,
   ((detect_transfers_invariants [zelleA, zelleB] "2025-05-01").1 _ hmem).2.1⟩

def c10TxA : Txn :=
  { id := "x1", accountId := "same-acct", date := "2025-01-01", amount := 777,
    payee := none, categoryId := none, transferId := some "old-link",
    transferAccountId := some "elsewhere", deletedAt := some "2025-02-01",
    importSource := none, importBatchId := none, createdAt := "c", updatedAt := "u" }

def c10TxB : Txn :=
  { id := "x2", accountId := "same-acct", date := "2025-01-01", amount := 777,
    payee := none, categoryId := none, transferId := some "old-link",
    transferAccountId := some "elsewhere", deletedAt := some "2025-02-01",
    importSource := none, importBatchId := none, createdAt := "c", updatedAt := "u" }

theorem foldl_add_shift (l : List Txn) :
    ∀ i : Int, l.foldl (fun s t => s + t.amount) i = i + l.foldl (fun s t => s + t.amount) 0 := by
  induction l with
  | nil => intro i; simp
  | cons t ts ih =>
    intro i
    simp only [List.foldl_cons]
    rw [ih (i + t.amount), ih (0 + t.amount)]
    ring

/-- The balance-relevant projection of a row. -/
def balProj (t : Txn) : String × Int × Option String :=
  (t.accountId, t.amount, t.deletedAt)

theorem accountBalanceSum_congr : ∀ l₁ l₂ : List Txn,
    l₁.map balProj = l₂.map balProj →
    ∀ acc, accountBalanceSum l₁ acc = accountBalanceSum l₂ acc := by
  intro l₁
  induction l₁ with
  | nil =>
    intro l₂ h acc
    cases l₂ with
    | nil => rfl
    | cons u us => simp at h
  | cons t ts ih =>
    intro l₂ h acc
    cases l₂ with
    | nil => simp at h
    | cons u us =>
      simp only [List.map_cons, List.cons.injEq] at h
      obtain ⟨hhead, htail⟩ := h
      have h1 : t.accountId = u.accountId := congrArg Prod.fst hhead
      have h2 : t.amount = u.amount := congrArg (fun p => p.2.1) hhead
      have h3 : t.deletedAt = u.deletedAt := congrArg (fun p => p.2.2) hhead
      unfold accountBalanceSum
      simp only [List.filter_cons]
      rw [h1, h3]
      have hrest := ih us htail acc
      unfold accountBalanceSum at hrest
      split
      · simp only [List.foldl_cons]
        rw [foldl_add_shift, foldl_add_shift (i := 0 + u.amount), hrest, h2]
      · rw [hrest]

theorem accountBalanceSum_setCategory (st : List Txn) (txId cid now acc : String) :
    accountBalanceSum (setCategory st txId cid now) acc = accountBalanceSum st acc := by
  apply accountBalanceSum_congr
  unfold setCategory
  rw [List.map_map]
  apply List.map_congr_left
  intro t _
  simp only [Function.comp_apply]
  split <;> rfl

theorem foldl_fst_balance {α : Type} (step : List Txn × Nat → α → List Txn × Nat)
    (acc : String)
    (h : ∀ p a, accountBalanceSum (step p a).1 acc = accountBalanceSum p.1 acc) :
    ∀ (l : List α) (p : List Txn × Nat),
      accountBalanceSum ((l.foldl step p).1) acc = accountBalanceSum p.1 acc := by
  intro l
  induction l with
  | nil => intro p; rfl
  | cons a as ih => intro p; rw [List.foldl_cons, ih (step p a), h p a]

/-- The internal rule engine only rewrites `category_id`/`updated_at`
columns, so every account's recomputed balance is unchanged by it. -/
theorem applyCategoryRulesInternal_balance (rm : String → String → Bool)
    (ruleTable : List CategoryRule) (scope : Option (List String))
    (st : List Txn) (now acc : String) :
    accountBalanceSum (applyCategoryRulesInternal rm ruleTable scope st now).1 acc =
      accountBalanceSum st acc := by
  simp only [applyCategoryRulesInternal]
  split
  · rfl
  · split
    · rfl
    · rw [foldl_fst_balance]
      · rw [foldl_fst_balance]
        intro p a
        dsimp only
        split
        · exact accountBalanceSum_setCategory _ _ _ _ _
        · rfl
      · intro p a
        dsimp only
        split
        · rfl
        · split
          · exact accountBalanceSum_setCategory _ _ _ _ _
          · rfl

theorem applyCategoryRulesInternal_empty_scope (rm : String → String → Bool)
    (ruleTable : List CategoryRule) (st : List Txn) (now : String) :
    applyCategoryRulesInternal rm ruleTable (some []) st now = (st, 0) := by
  simp only [applyCategoryRulesInternal]
  split
  · rfl
  · rfl

theorem importLoop_all_duplicates (accountId : String) (cats : List Category)
    (freshIds : Nat → String) (batchId now : String) :
    ∀ (batch : List IncomingTx) (state : List Txn) (imported skipped : Nat)
      (ids : List String),
      (∀ inc ∈ batch, (findDuplicate state accountId inc).isSome = true) →
      importLoop accountId cats freshIds batchId now batch (state, imported, skipped, ids) =
        (state, imported, skipped + batch.length, ids) := by
  intro batch
  induction batch with
  | nil => intro state imported skipped ids _; simp [importLoop]
  | cons inc rest ih =>
    intro state imported skipped ids h
    obtain ⟨d, hd⟩ := Option.isSome_iff_exists.mp (h inc (List.mem_cons_self inc rest))
    unfold importLoop
    rw [hd]
    rw [ih state imported (skipped + 1) ids (fun i hi => h i (List.mem_cons_of_mem inc hi))]
    have : skipped + 1 + rest.length = skipped + (rest.length + 1) := by omega
    rw [this]
    rfl

theorem findDuplicate_of_inserted (state : List Txn) (accountId : String)
    (inc : IncomingTx) (cats : List Category) (newId batchId now : String)
    (h : findDuplicate state accountId inc = none) :
    findDuplicate (state ++ [insertedTxn accountId inc cats newId batchId now])
      accountId inc = some (insertedTxn accountId inc cats newId batchId now) := by
  unfold findDuplicate at h ⊢
  rw [List.find?_append, h]
  simp [List.find?, insertedTxn]

/-- C1: a batch `[inc, inc]` against a ledger with no existing duplicate
imports once and skips once, and the recomputed account balance is the old
non-deleted sum plus the single accepted amount — equal to the sum over the
final state; moreover a batch in which every element already duplicates an
existing non-deleted row imports nothing, skips everything, and leaves the
ledger unchanged. -/
theorem import_dedup_and_balance (rmatch : String → String → Bool)
    (cats : List Category) (ruleTable : List CategoryRule) (accountId : String)
    (freshIds : Nat → String) (batchId now : String) :
    (∀ (state : List Txn) (inc : IncomingTx),
       findDuplicate state accountId inc = none →
       (importTransactions rmatch state cats ruleTable accountId [inc, inc]
          freshIds batchId now).imported = 1 ∧
       (importTransactions rmatch state cats ruleTable accountId [inc, inc]
          freshIds batchId now).skipped = 1 ∧
       (importTransactions rmatch state cats ruleTable accountId [inc, inc]
          freshIds batchId now).balance =
         accountBalanceSum state accountId + inc.amount ∧
       (importTransactions rmatch state cats ruleTable accountId [inc, inc]
          freshIds batchId now).balance =
         accountBalanceSum
           (importTransactions rmatch state cats ruleTable accountId [inc, inc]
              freshIds batchId now).state accountId) ∧
    (∀ (state : List Txn) (batch : List IncomingTx),
       (∀ inc ∈ batch, (findDuplicate state accountId inc).isSome = true) →
       (importTransactions rmatch state cats ruleTable accountId batch
          freshIds batchId now).imported = 0 ∧
       (importTransactions rmatch state cats ruleTable accountId batch
          freshIds batchId now).skipped = batch.length ∧
       (importTransactions rmatch state cats ruleTable accountId batch
          freshIds batchId now).state = state) := by
  constructor
  · intro state inc hdup
    have hloop :
        importLoop accountId cats freshIds batchId now [inc, inc] (state, 0, 0, []) =
          (state ++ [insertedTxn accountId inc cats (freshIds 0) batchId now], 1, 1,
           [freshIds 0]) := by
      unfold importLoop
      rw [hdup]
      unfold importLoop
      rw [findDuplicate_of_inserted state accountId inc cats (freshIds 0) batchId now hdup]
      rfl
    have hsingle :
        accountBalanceSum [insertedTxn accountId inc cats (freshIds 0) batchId now]
          accountId = inc.amount := by
      simp [accountBalanceSum, insertedTxn, List.filter]
    constructor
    · simp [importTransactions, hloop]
    constructor
    · simp [importTransactions, hloop]
    constructor
    · simp only [importTransactions, hloop]
      rw [accountBalanceSum_congr
        (state ++ [insertedTxn accountId inc cats (freshIds 0) batchId now])
        (state ++ [insertedTxn accountId inc cats (freshIds 0) batchId now]) rfl]
      unfold accountBalanceSum
      rw [List.filter_append, List.foldl_append]
      rw [foldl_add_shift]
      have := hsingle
      unfold accountBalanceSum at this
      rw [this]
    · simp only [importTransactions, hloop]
      exact (applyCategoryRulesInternal_balance rmatch ruleTable (some [freshIds 0]) _ now
        accountId).symm
  · intro state batch hall
    have hloop := importLoop_all_duplicates accountId cats freshIds batchId now batch
      state 0 0 [] hall
    refine ⟨?_, ?_, ?_⟩
    · simp [importTransactions, hloop]
    · simp [importTransactions, hloop]
    · simp [importTransactions, hloop, applyCategoryRulesInternal_empty_scope]

def c1Inc : IncomingTx :=
  { date := "2025-03-10", amount := -4250, payee := some "MARKET STREET CAFE",
    memo := none, categoryId := none, pdfCategory := none }

theorem import_dedup_and_balance_witness :
    (importTransactions (fun _ _ => false) [] [] [] "acc-1" [c1Inc, c1Inc]
       (fun _ => "new-id") "batch-1" "now").imported = 1 ∧
    (importTransactions (fun _ _ => false) [] [] [] "acc-1" [c1Inc, c1Inc]
       (fun _ => "new-id") "batch-1" "now").skipped = 1 ∧
    (importTransactions (fun _ _ => false) [] [] [] "acc-1" [c1Inc, c1Inc]
       (fun _ => "new-id") "batch-1" "now").balance =
      accountBalanceSum [] "acc-1" + c1Inc.amount := by
  have h := (import_dedup_and_balance (fun _ _ => false) [] [] "acc-1"
    (fun _ => "new-id") "batch-1" "now").1 [] c1Inc (by decide)
  exact ⟨h.1, h.2.1, h.2.2.1⟩

theorem link_transfer_no_validation_witness :
    ∃ st', linkTransfer [c10TxA, c10TxB] "x1" "x2" "fresh" "now" = .ok st' ∧
      st'.find? (fun t => t.id = "x1") =
        some { c10TxA with transferId := some "fresh",
                           transferAccountId := some c10TxB.accountId, updatedAt := "now" } ∧
      st'.find? (fun t => t.id = "x2") =
        some { c10TxB with transferId := some "fresh",
                           transferAccountId := some c10TxA.accountId, updatedAt := "now" } ∧
      ∀ t ∈ [c10TxA, c10TxB], t.id ≠ "x1" → t.id ≠ "x2" → t ∈ st' :=
  link_transfer_no_validation [c10TxA, c10TxB] "x1" "x2" "fresh" "now" c10TxA c10TxB
    (by decide) (by decide) (by decide)

theorem detectFrequency_monthly (d1 d2 d3 d4 : Int)
    (g1 : 28 ≤ d2 - d1) (g2 : d2 - d1 ≤ 32)
    (g3 : 28 ≤ d3 - d2) (g4 : d3 - d2 ≤ 32)
    (g5 : 28 ≤ d4 - d3) (g6 : d4 - d3 ≤ 32) :
    detectFrequency [d1, d2, d3, d4] = some ("monthly", 30) := by
  have p1 : (0 : Int) < d2 - d1 := by omega
  have p2 : (0 : Int) < d3 - d2 := by omega
  have p3 : (0 : Int) < d4 - d3 := by omega
  simp only [detectFrequency, consecutiveDiffs]
  rw [if_neg (by simp)]
  have hflt : List.filter (fun x => decide (0 < x)) [d2 - d1, d3 - d2, d4 - d3] =
      [d2 - d1, d3 - d2, d4 - d3] := by
    simp [List.filter_cons, p1, p2, p3]
  simp only [hflt]
  rw [if_neg (by simp)]
  have hsum : ([d2 - d1, d3 - d2, d4 - d3] : List Int).sum = d4 - d1 := by
    simp only [List.sum_cons, List.sum_nil]
    ring
  have hlen : ([d2 - d1, d3 - d2, d4 - d3] : List Int).length = 3 := rfl
  simp only [hsum, hlen, Nat.cast_ofNat]
  have h25 : (25 : ℚ) ≤ ((d4 - d1 : Int) : ℚ) / 3 := by
    rw [le_div_iff (by norm_num : (0 : ℚ) < 3)]
    have hge : (75 : Int) ≤ d4 - d1 := by omega
    calc (25 : ℚ) * 3 = ((75 : Int) : ℚ) := by norm_num
    _ ≤ _ := Int.cast_le.mpr hge
  have h35 : ((d4 - d1 : Int) : ℚ) / 3 ≤ 35 := by
    rw [div_le_iff (by norm_num : (0 : ℚ) < 3)]
    have hle : d4 - d1 ≤ (105 : Int) := by omega
    calc ((d4 - d1 : Int) : ℚ) ≤ ((105 : Int) : ℚ) := Int.cast_le.mpr hle
    _ ≤ 35 * 3 := by norm_num
  split_ifs with hw hb hm hq hy
  · exfalso; linarith [hw.2, h25]
  · exfalso; linarith [hb.2, h25]
  · rfl
  · exact absurd ⟨h25, h35⟩ hm
  · exact absurd ⟨h25, h35⟩ hm
  · exact absurd ⟨h25, h35⟩ hm

theorem processGroup_monthly (t1 t2 t3 t4 : RTx)
    (c1 c2 c3 c4 : Nat × Nat × Nat) (d1 d2 d3 d4 : Int)
    (h1 : chronoParseDate t1.date "%Y-%m-%d" = some c1) (e1 : dateTripleDays c1 = d1)
    (h2 : chronoParseDate t2.date "%Y-%m-%d" = some c2) (e2 : dateTripleDays c2 = d2)
    (h3 : chronoParseDate t3.date "%Y-%m-%d" = some c3) (e3 : dateTripleDays c3 = d3)
    (h4 : chronoParseDate t4.date "%Y-%m-%d" = some c4) (e4 : dateTripleDays c4 = d4)
    (g1 : 28 ≤ d2 - d1) (g2 : d2 - d1 ≤ 32)
    (g3 : 28 ≤ d3 - d2) (g4 : d3 - d2 ≤ 32)
    (g5 : 28 ≤ d4 - d3) (g6 : d4 - d3 ≤ 32) :
    ∃ r, processGroup [t1, t2, t3, t4] = some r ∧
      r.frequency = "monthly" ∧ r.frequencyDays = 30 ∧ r.occurrences = 4 ∧
      r.lastDate = t4.date ∧ r.nextExpectedDate = formatEpochDays (d4 + 30) := by
  simp only [processGroup]
  rw [if_neg (by simp)]
  have hfm : List.filterMap
      (fun t : RTx => (chronoParseDate t.date "%Y-%m-%d").map fun d => (t, dateTripleDays d))
      [t1, t2, t3, t4] = [(t1, d1), (t2, d2), (t3, d3), (t4, d4)] := by
    simp [List.filterMap_cons, h1, h2, h3, h4, e1, e2, e3, e4]
  rw [hfm]
  have hsorted : List.Sorted (fun a b : RTx × Int => a.2 ≤ b.2)
      [(t1, d1), (t2, d2), (t3, d3), (t4, d4)] := by
    simp only [List.sorted_cons, List.mem_cons, List.not_mem_nil, or_false, false_or,
      forall_eq_or_imp, forall_eq, List.sorted_nil, and_true, false_implies,
      implies_true, true_and]
    refine ⟨⟨?_, ?_, ?_⟩, ⟨?_, ?_⟩, ?_⟩ <;> dsimp only <;> omega
  rw [List.Sorted.insertionSort_eq hsorted]
  rw [if_neg (by simp)]
  have hmap : ([(t1, d1), (t2, d2), (t3, d3), (t4, d4)].map fun p : RTx × Int => p.2) =
      [d1, d2, d3, d4] := rfl
  rw [hmap]
  rw [detectFrequency_monthly d1 d2 d3 d4 g1 g2 g3 g4 g5 g6]
  exact ⟨_, rfl, rfl, rfl, rfl, rfl, rfl⟩

/-- C8: a group of four same-key transactions whose consecutive (parsed,
sorted) dates are 30±2 days apart is reported as `monthly` with
`frequency_days = 30` and next expected date equal to the last date plus 30
days; and a date series whose mean positive gap lies outside every frequency
bucket (weekly 5–9, biweekly 12–17, monthly 25–35, quarterly 85–100, yearly
350–380) is classified as `none`, so its group is dropped by the
`filterMap` over groups and never reported. -/
theorem recurring_monthly_and_bucket_discard :
    (∀ (txs : List RTx) (k : String × String × Nat) (t1 t2 t3 t4 : RTx)
       (c1 c2 c3 c4 : Nat × Nat × Nat) (d1 d2 d3 d4 : Int),
       (k, [t1, t2, t3, t4]) ∈ groupsOf txs →
       chronoParseDate t1.date "%Y-%m-%d" = some c1 → dateTripleDays c1 = d1 →
       chronoParseDate t2.date "%Y-%m-%d" = some c2 → dateTripleDays c2 = d2 →
       chronoParseDate t3.date "%Y-%m-%d" = some c3 → dateTripleDays c3 = d3 →
       chronoParseDate t4.date "%Y-%m-%d" = some c4 → dateTripleDays c4 = d4 →
       28 ≤ d2 - d1 → d2 - d1 ≤ 32 → 28 ≤ d3 - d2 → d3 - d2 ≤ 32 →
       28 ≤ d4 - d3 → d4 - d3 ≤ 32 →
       ∃ r ∈ detectRecurring txs,
         r.frequency = "monthly" ∧ r.frequencyDays = 30 ∧ r.occurrences = 4 ∧
         r.lastDate = t4.date ∧ r.nextExpectedDate = formatEpochDays (d4 + 30)) ∧
    (∀ (dates : List Int) (q : ℚ),
       ((consecutiveDiffs dates).filter (fun x => 0 < x)).length ≠ 0 →
       q = ((((consecutiveDiffs dates).filter (fun x => 0 < x)).sum : Int) : ℚ) /
           (((consecutiveDiffs dates).filter (fun x => 0 < x)).length : ℚ) →
       ¬(5 ≤ q ∧ q ≤ 9) → ¬(12 ≤ q ∧ q ≤ 17) → ¬(25 ≤ q ∧ q ≤ 35) →
       ¬(85 ≤ q ∧ q ≤ 100) → ¬(350 ≤ q ∧ q ≤ 380) →
       detectFrequency dates = none) := by
  constructor
  · intro txs k t1 t2 t3 t4 c1 c2 c3 c4 d1 d2 d3 d4 hmem
      h1 e1 h2 e2 h3 e3 h4 e4 g1 g2 g3 g4 g5 g6
    obtain ⟨r, hr, props⟩ := processGroup_monthly t1 t2 t3 t4 c1 c2 c3 c4 d1 d2 d3 d4
      h1 e1 h2 e2 h3 e3 h4 e4 g1 g2 g3 g4 g5 g6
    refine ⟨r, ?_, props⟩
    unfold detectRecurring
    refine (List.perm_insertionSort _ _).mem_iff.mpr ?_
    exact List.mem_filterMap.mpr ⟨(k, [t1, t2, t3, t4]), hmem, hr⟩
  · intro dates q hne hq hw hb hm hqt hy
    simp only [detectFrequency]
    by_cases hlen : dates.length < 3
    · rw [if_pos hlen]
    rw [if_neg hlen]
    have hie : ((consecutiveDiffs dates).filter (fun x => 0 < x)).isEmpty = false := by
      cases h : ((consecutiveDiffs dates).filter (fun x => 0 < x)).isEmpty
      · rfl
      · exact absurd (List.isEmpty_iff_length_eq_zero.mp h) hne
    rw [if_neg (by simp [hie])]
    subst hq
    rw [if_neg hw, if_neg hb, if_neg hm, if_neg hqt, if_neg hy]

def rtx1 : RTx :=
  { id := "r1", accountId := "acc1", date := "2025-01-01", amount := -1599,
    payee := "Netflix", categoryId := none, accountName := "Checking" }

def rtx2 : RTx :=
  { id := "r2", accountId := "acc1", date := "2025-01-31", amount := -1599,
    payee := "Netflix", categoryId := none, accountName := "Checking" }

def rtx3 : RTx :=
  { id := "r3", accountId := "acc1", date := "2025-03-02", amount := -1599,
    payee := "Netflix", categoryId := none, accountName := "Checking" }

def rtx4 : RTx :=
  { id := "r4", accountId := "acc1", date := "2025-04-01", amount := -1599,
    payee := "Netflix", categoryId := none, accountName := "Checking" }

set_option maxRecDepth 100000 in
theorem recurring_monthly_and_bucket_discard_witness :
    ∃ r ∈ detectRecurring [rtx1, rtx2, rtx3, rtx4],
      r.frequency = "monthly" ∧ r.frequencyDays = 30 ∧ r.occurrences = 4 ∧
      r.lastDate = rtx4.date ∧ r.nextExpectedDate = formatEpochDays (20179 + 30) :=
  recurring_monthly_and_bucket_discard.1 [rtx1, rtx2, rtx3, rtx4]
    ("netflix", "acc1", 1500) rtx1 rtx2 rtx3 rtx4
    (2025, 1, 1) (2025, 1, 31) (2025, 3, 2) (2025, 4, 1)
    20089 20119 20149 20179
    (by decide) (by decide) (by decide) (by decide) (by decide)
    (by decide) (by decide) (by decide) (by decide)
    (by decide) (by decide) (by decide) (by decide) (by decide) (by decide)

end Tally
